import Mathlib

/-!
# webrtc_for_cpp: scalability-mode table and signaling-client engine

A shallow embedding of

* `modules/video_coding/svc/scalability_mode_util.cc` (namespace `webrtc`), and
* `examples/peerconnection/client_test/peer_connection_client.{h,cc}`
  (namespace `PeerConnectionClient`).

Conventions of the embedding:

* a C++ `switch` over an enum whose arms all `return`, followed by
  `RTC_CHECK_NOTREACHED()`, is the function `switchCase`: it scans the arms in
  source order and yields `none` when no `case` label matches, which is the
  path that reaches `RTC_CHECK_NOTREACHED()` and aborts;
* `absl::optional<T>` is `Option T`; a function that may abort *and* returns an
  optional therefore has type `Option (Option T)`, the outer `none` being the
  abort;
* C++ `int` is `Int`, `size_t` is `Nat`, `std::string` is `List Char`.
-/

namespace webrtc

/-- The enumerators of `webrtc::ScalabilityMode`. The enum declaration
(`api/video_codecs/scalability_mode.h`) is not among the source files; the
enumerators are listed in the order in which `kScalabilityModeConfigs` and every
`switch` of `scalability_mode_util.cc` list them. -/
inductive ScalabilityMode where
  | kL1T1 | kL1T2 | kL1T3
  | kL2T1 | kL2T1h | kL2T1_KEY
  | kL2T2 | kL2T2h | kL2T2_KEY | kL2T2_KEY_SHIFT
  | kL2T3 | kL2T3h | kL2T3_KEY
  | kL3T1 | kL3T1h | kL3T1_KEY
  | kL3T2 | kL3T2h | kL3T2_KEY
  | kL3T3 | kL3T3h | kL3T3_KEY
  | kS2T1 | kS2T1h | kS2T2 | kS2T2h | kS2T3 | kS2T3h
  | kS3T1 | kS3T1h | kS3T2 | kS3T2h | kS3T3 | kS3T3h
  deriving DecidableEq, Repr, Fintype

/-- The enumerators of `webrtc::InterLayerPredMode` that the source uses. -/
inductive InterLayerPredMode where
  | kOff | kOn | kOnKeyPic
  deriving DecidableEq, Repr, Fintype

/-- The enumerators of `webrtc::ScalabilityModeResolutionRatio` that the source
uses. -/
inductive ScalabilityModeResolutionRatio where
  | kTwoToOne | kThreeToTwo
  deriving DecidableEq, Repr, Fintype

/-- A `switch (scrutinee)` whose arms all return: `arms` pairs the `case` labels
of each arm with the value the arm returns. `none` is falling out of the
`switch`, onto `RTC_CHECK_NOTREACHED()`. -/
def switchCase {α β : Type} [DecidableEq α] (scrutinee : α) :
    List (List α × β) → Option β
  | [] => none
  | (labels, result) :: arms =>
    if labels.contains scrutinee then some result else switchCase scrutinee arms

open ScalabilityMode in
/-- `InterLayerPredMode ScalabilityModeToInterLayerPredMode(ScalabilityMode)`,
lines 202-254. -/
def ScalabilityModeToInterLayerPredMode (scalability_mode : ScalabilityMode) :
    Option InterLayerPredMode :=
  switchCase scalability_mode [
    ([kL1T1, kL1T2, kL1T3, kL2T1, kL2T1h], InterLayerPredMode.kOn),
    ([kL2T1_KEY], InterLayerPredMode.kOnKeyPic),
    ([kL2T2, kL2T2h], InterLayerPredMode.kOn),
    ([kL2T2_KEY, kL2T2_KEY_SHIFT], InterLayerPredMode.kOnKeyPic),
    ([kL2T3, kL2T3h], InterLayerPredMode.kOn),
    ([kL2T3_KEY], InterLayerPredMode.kOnKeyPic),
    ([kL3T1, kL3T1h], InterLayerPredMode.kOn),
    ([kL3T1_KEY], InterLayerPredMode.kOnKeyPic),
    ([kL3T2, kL3T2h], InterLayerPredMode.kOn),
    ([kL3T2_KEY], InterLayerPredMode.kOnKeyPic),
    ([kL3T3, kL3T3h], InterLayerPredMode.kOn),
    ([kL3T3_KEY], InterLayerPredMode.kOnKeyPic),
    ([kS2T1, kS2T1h, kS2T2, kS2T2h, kS2T3, kS2T3h,
      kS3T1, kS3T1h, kS3T2, kS3T2h, kS3T3, kS3T3h], InterLayerPredMode.kOff)]

open ScalabilityMode in
/-- `int ScalabilityModeToNumSpatialLayers(ScalabilityMode)`, lines 256-299. -/
def ScalabilityModeToNumSpatialLayers (scalability_mode : ScalabilityMode) :
    Option Int :=
  switchCase scalability_mode [
    ([kL1T1, kL1T2, kL1T3], 1),
    ([kL2T1, kL2T1h, kL2T1_KEY, kL2T2, kL2T2h, kL2T2_KEY, kL2T2_KEY_SHIFT,
      kL2T3, kL2T3h, kL2T3_KEY], 2),
    ([kL3T1, kL3T1h, kL3T1_KEY, kL3T2, kL3T2h, kL3T2_KEY,
      kL3T3, kL3T3h, kL3T3_KEY], 3),
    ([kS2T1, kS2T1h, kS2T2, kS2T2h, kS2T3, kS2T3h], 2),
    ([kS3T1, kS3T1h, kS3T2, kS3T2h, kS3T3, kS3T3h], 3)]

open ScalabilityMode in
/-- `int ScalabilityModeToNumTemporalLayers(ScalabilityMode)`, lines 301-351. -/
def ScalabilityModeToNumTemporalLayers (scalability_mode : ScalabilityMode) :
    Option Int :=
  switchCase scalability_mode [
    ([kL1T1], 1),
    ([kL1T2], 2),
    ([kL1T3], 3),
    ([kL2T1, kL2T1h, kL2T1_KEY], 1),
    ([kL2T2, kL2T2h, kL2T2_KEY, kL2T2_KEY_SHIFT], 2),
    ([kL2T3, kL2T3h, kL2T3_KEY], 3),
    ([kL3T1, kL3T1h, kL3T1_KEY], 1),
    ([kL3T2, kL3T2h, kL3T2_KEY], 2),
    ([kL3T3, kL3T3h, kL3T3_KEY], 3),
    ([kS2T1, kS2T1h, kS3T1, kS3T1h], 1),
    ([kS2T2, kS2T2h, kS3T2, kS3T2h], 2),
    ([kS2T3, kS2T3h, kS3T3, kS3T3h], 3)]

open ScalabilityMode in
/-- `absl::optional<ScalabilityModeResolutionRatio>
ScalabilityModeToResolutionRatio(ScalabilityMode)`, lines 353-395. The outer
`Option` is the abort, the inner one the `absl::optional`. -/
def ScalabilityModeToResolutionRatio (scalability_mode : ScalabilityMode) :
    Option (Option ScalabilityModeResolutionRatio) :=
  switchCase scalability_mode [
    ([kL1T1, kL1T2, kL1T3], none),
    ([kL2T1, kL2T1_KEY, kL2T2, kL2T2_KEY, kL2T2_KEY_SHIFT, kL2T3, kL2T3_KEY,
      kL3T1, kL3T1_KEY, kL3T2, kL3T2_KEY, kL3T3, kL3T3_KEY,
      kS2T1, kS2T2, kS2T3, kS3T1, kS3T2, kS3T3],
      some ScalabilityModeResolutionRatio.kTwoToOne),
    ([kL2T1h, kL2T2h, kL2T3h, kL3T1h, kL3T2h, kL3T3h,
      kS2T1h, kS2T2h, kS2T3h, kS3T1h, kS3T2h, kS3T3h],
      some ScalabilityModeResolutionRatio.kThreeToTwo)]

/-- `bool ScalabilityModeIsShiftMode(ScalabilityMode)`, lines 492-494. -/
def ScalabilityModeIsShiftMode (scalability_mode : ScalabilityMode) : Bool :=
  decide (scalability_mode = ScalabilityMode.kL2T2_KEY_SHIFT)

/-- `struct ScalabilityModeParameters`, lines 25-43. -/
structure ScalabilityModeParameters where
  num_spatial_layers : Int
  num_temporal_layers : Int
  inter_layer_pred : InterLayerPredMode
  ratio : Option ScalabilityModeResolutionRatio
  shift : Bool
  deriving DecidableEq, Repr

/-- `ScalabilityModeParameters::operator==`, lines 32-42: `this == other`. For all
L1Tx modes `inter_layer_pred`, `ratio` and `shift` are ignored. -/
def ScalabilityModeParameters.opEq (this other : ScalabilityModeParameters) : Bool :=
  if this.num_spatial_layers = 1 then
    decide (this.num_spatial_layers = other.num_spatial_layers) &&
      decide (this.num_temporal_layers = other.num_temporal_layers)
  else
    decide (this.num_spatial_layers = other.num_spatial_layers) &&
      decide (this.num_temporal_layers = other.num_temporal_layers) &&
      decide (this.inter_layer_pred = other.inter_layer_pred) &&
      decide (this.ratio = other.ratio) && decide (this.shift = other.shift)

/-- `struct ScalabilityModeConfiguration`, lines 45-61. -/
structure ScalabilityModeConfiguration where
  scalability_mode : ScalabilityMode
  params : ScalabilityModeParameters
  deriving DecidableEq, Repr

/-- The constructor `ScalabilityModeConfiguration(ScalabilityMode)`, lines 46-57:
it aborts when one of the four lookups does. -/
def ScalabilityModeConfiguration.make (scalability_mode : ScalabilityMode) :
    Option ScalabilityModeConfiguration := do
  let num_spatial_layers ← ScalabilityModeToNumSpatialLayers scalability_mode
  let num_temporal_layers ← ScalabilityModeToNumTemporalLayers scalability_mode
  let inter_layer_pred ← ScalabilityModeToInterLayerPredMode scalability_mode
  let ratio ← ScalabilityModeToResolutionRatio scalability_mode
  pure { scalability_mode := scalability_mode
         params := { num_spatial_layers := num_spatial_layers
                     num_temporal_layers := num_temporal_layers
                     inter_layer_pred := inter_layer_pred
                     ratio := ratio
                     shift := ScalabilityModeIsShiftMode scalability_mode } }

/-- `kNumScalabilityModes = static_cast<size_t>(ScalabilityMode::kS3T3h) + 1`,
lines 63-64. -/
def kNumScalabilityModes : Nat := ScalabilityMode.kS3T3h.toCtorIdx + 1

open ScalabilityMode in
/-- The modes that the initialiser of `kScalabilityModeConfigs` names, in source
order, lines 76-111. -/
def kScalabilityModeConfigs.modes : List ScalabilityMode :=
  [kL1T1, kL1T2, kL1T3,
   kL2T1, kL2T1h, kL2T1_KEY,
   kL2T2, kL2T2h, kL2T2_KEY, kL2T2_KEY_SHIFT,
   kL2T3, kL2T3h, kL2T3_KEY,
   kL3T1, kL3T1h, kL3T1_KEY,
   kL3T2, kL3T2h, kL3T2_KEY,
   kL3T3, kL3T3h, kL3T3_KEY,
   kS2T1, kS2T1h, kS2T2, kS2T2h, kS2T3, kS2T3h,
   kS3T1, kS3T1h, kS3T2, kS3T2h, kS3T3, kS3T3h]

/-- The function-local static table `kScalabilityModeConfigs`, lines 76-111:
each entry is built by the constructor. -/
def kScalabilityModeConfigs : Option (List ScalabilityModeConfiguration) :=
  kScalabilityModeConfigs.modes.mapM ScalabilityModeConfiguration.make

/-- The loop of lines 114-119: the mode of the first candidate whose parameters
compare equal to `params`, `absl::nullopt` when there is none. -/
def firstMatchingMode (params : ScalabilityModeParameters) :
    List ScalabilityModeConfiguration → Option ScalabilityMode
  | [] => none
  | candidate_mode :: rest =>
    if candidate_mode.params.opEq params then some candidate_mode.scalability_mode
    else firstMatchingMode params rest

/-- `absl::optional<ScalabilityMode> MakeScalabilityMode(...)`, lines 67-120. -/
def MakeScalabilityMode (num_spatial_layers num_temporal_layers : Int)
    (inter_layer_pred : InterLayerPredMode)
    (ratio : Option ScalabilityModeResolutionRatio) (shift : Bool) :
    Option (Option ScalabilityMode) := do
  let params : ScalabilityModeParameters :=
    { num_spatial_layers := num_spatial_layers
      num_temporal_layers := num_temporal_layers
      inter_layer_pred := inter_layer_pred
      ratio := ratio
      shift := shift }
  let configs ← kScalabilityModeConfigs
  pure (firstMatchingMode params configs)

open ScalabilityMode in
/-- `ScalabilityMode LimitNumSpatialLayers(ScalabilityMode, int)`,
lines 397-490. -/
def LimitNumSpatialLayers (scalability_mode : ScalabilityMode)
    (max_spatial_layers : Int) : Option ScalabilityMode := do
  let num_spatial_layers ← ScalabilityModeToNumSpatialLayers scalability_mode
  if max_spatial_layers ≥ num_spatial_layers then
    pure scalability_mode
  else
    switchCase scalability_mode [
      ([kL1T1], kL1T1),
      ([kL1T2], kL1T2),
      ([kL1T3], kL1T3),
      ([kL2T1], kL1T1),
      ([kL2T1h], kL1T1),
      ([kL2T1_KEY], kL1T1),
      ([kL2T2], kL1T2),
      ([kL2T2h], kL1T2),
      ([kL2T2_KEY], kL1T2),
      ([kL2T2_KEY_SHIFT], kL1T2),
      ([kL2T3], kL1T3),
      ([kL2T3h], kL1T3),
      ([kL2T3_KEY], kL1T3),
      ([kL3T1], if max_spatial_layers = 2 then kL2T1 else kL1T1),
      ([kL3T1h], if max_spatial_layers = 2 then kL2T1h else kL1T1),
      ([kL3T1_KEY], if max_spatial_layers = 2 then kL2T1_KEY else kL1T1),
      ([kL3T2], if max_spatial_layers = 2 then kL2T2 else kL1T2),
      ([kL3T2h], if max_spatial_layers = 2 then kL2T2h else kL1T2),
      ([kL3T2_KEY], if max_spatial_layers = 2 then kL2T2_KEY else kL1T2),
      ([kL3T3], if max_spatial_layers = 2 then kL2T3 else kL1T3),
      ([kL3T3h], if max_spatial_layers = 2 then kL2T3h else kL1T3),
      ([kL3T3_KEY], if max_spatial_layers = 2 then kL2T3_KEY else kL1T3),
      ([kS2T1], kL1T1),
      ([kS2T1h], kL1T1),
      ([kS2T2], kL1T2),
      ([kS2T2h], kL1T2),
      ([kS2T3], kL1T3),
      ([kS2T3h], kL1T3),
      ([kS3T1], if max_spatial_layers = 2 then kS2T1 else kL1T1),
      ([kS3T1h], if max_spatial_layers = 2 then kS2T1h else kL1T1),
      ([kS3T2], if max_spatial_layers = 2 then kS2T2 else kL1T2),
      ([kS3T2h], if max_spatial_layers = 2 then kS2T2h else kL1T2),
      ([kS3T3], if max_spatial_layers = 2 then kS2T3 else kL1T3),
      ([kS3T3h], if max_spatial_layers = 2 then kS2T3h else kL1T3)]

/-- The mode `m` has the parameters `(s, t, p, r, sh)` in the sense in which
`MakeScalabilityMode` looks a mode up: `s` spatial and `t` temporal layers and,
when `s` is not 1, also inter-layer prediction mode `p`, resolution ratio `r`
and shift flag `sh`. -/
def HasParameters (m : ScalabilityMode) (s t : Int) (p : InterLayerPredMode)
    (r : Option ScalabilityModeResolutionRatio) (sh : Bool) : Prop :=
  ScalabilityModeToNumSpatialLayers m = some s ∧
  ScalabilityModeToNumTemporalLayers m = some t ∧
  (s ≠ 1 →
    ScalabilityModeToInterLayerPredMode m = some p ∧
    ScalabilityModeToResolutionRatio m = some r ∧
    ScalabilityModeIsShiftMode m = sh)

end webrtc

namespace PeerConnectionClient

/-! ### Data model (`peer_connection_client.h`) -/

/-- `typedef std::map<int, std::string> Peers;`, line 14, as an association list;
`Peers.assign` keeps at most one entry per key. -/
abbrev Peers := List (Int × List Char)

/-- `peers.find(id) != peers.end()`. -/
def Peers.has (peers : Peers) (id : Int) : Bool :=
  peers.any (fun entry => decide (entry.1 = id))

/-- `peers.erase(id)`. -/
def Peers.remove (peers : Peers) (id : Int) : Peers :=
  peers.filter (fun entry => decide (entry.1 ≠ id))

/-- `peers[id] = name`. -/
def Peers.assign (peers : Peers) (id : Int) (name : List Char) : Peers :=
  Peers.remove peers id ++ [(id, name)]

/-- `enum State`, lines 31-38. -/
inductive State where
  | NOT_CONNECTED
  | RESOLVING
  | SIGNING_IN
  | CONNECTED
  | SIGNING_OUT_WAITING
  | SIGNING_OUT
  deriving DecidableEq, Repr

/-- The integer value that C++ gives each enumerator of `State`: none has an
initialiser, so they count up from zero in declaration order. -/
def State.value : State → Nat
  | NOT_CONNECTED => 0
  | RESOLVING => 1
  | SIGNING_IN => 2
  | CONNECTED => 3
  | SIGNING_OUT_WAITING => 4
  | SIGNING_OUT => 5

/-- The enumerators of `State` in declaration order. -/
def State.all : List State :=
  [State.NOT_CONNECTED, State.RESOLVING, State.SIGNING_IN, State.CONNECTED,
   State.SIGNING_OUT_WAITING, State.SIGNING_OUT]

/-- The session states as the specification names them (section 3,
"SessionState"), in the order in which it lists them. -/
inductive SessionState where
  | Disconnected
  | Resolving
  | SigningIn
  | Connected
  | SigningOutWaiting
  | SigningOut
  deriving DecidableEq, Repr

/-- The specification's list of session states, in its order. -/
def SessionState.all : List SessionState :=
  [SessionState.Disconnected, SessionState.Resolving, SessionState.SigningIn,
   SessionState.Connected, SessionState.SigningOutWaiting, SessionState.SigningOut]

/-- The specification's name for each enumerator of `State`. -/
def State.toSessionState : State → SessionState
  | NOT_CONNECTED => SessionState.Disconnected
  | RESOLVING => SessionState.Resolving
  | SIGNING_IN => SessionState.SigningIn
  | CONNECTED => SessionState.Connected
  | SIGNING_OUT_WAITING => SessionState.SigningOutWaiting
  | SIGNING_OUT => SessionState.SigningOut

/-- `kByeMessage`, `peer_connection_client.cc` line 12. -/
def kByeMessage : List Char := "BYE".toList

/-- Modelled from the spec: the connection state of an `rtc::Socket` (the class
is a collaborator outside the repository); section 5 names "awaiting a socket
connect" and "awaiting a socket read" as the two suspension points of an open
socket. -/
inductive ConnState where
  | CS_CLOSED
  | CS_CONNECTING
  | CS_CONNECTED
  deriving DecidableEq, Repr

/-- The two sockets of the client, `control_socket_` and `hanging_get_`, lines
101-102. -/
inductive SocketRole where
  | control
  | hangingGet
  deriving DecidableEq, Repr

/-- Modelled from the spec: `rtc::SocketAddress server_address_` (section 3,
"ServerAddress"): the requested host name and port, and the resolved endpoint
once resolution succeeded. -/
structure SocketAddress where
  hostname : List Char
  port : Int
  resolved : Option (List Char)
  deriving DecidableEq, Repr

/-- Modelled from the spec: the requests the client puts on the wire. Their byte
shape is "a collaborator concern" (section 4.3), so a request is kept as what it
asks for: sign-in with a name, a message for a peer, sign-out, and the
long-poll on the notification socket. -/
inductive Request where
  | signIn (client_name : List Char)
  | message (my_id : Option Int) (peer_id : Int) (body : List Char)
  | signOut (my_id : Option Int)
  | wait (my_id : Option Int)
  deriving DecidableEq, Repr

/-- The observer callbacks of `struct PeerConnectionClientObserver`, lines 16-27,
and, modelled from the spec (section 6, downstream collaborators), the calls
the engine makes on the resolver and on its sockets. -/
inductive Effect where
  | OnSignedIn
  | OnDisconnected
  | OnPeerConnected (id : Int) (name : List Char)
  | OnPeerDisconnected (peer_id : Int)
  | OnMessageFromPeer (peer_id : Int) (message : List Char)
  | OnMessageSent (err : Int)
  | OnServerConnectionFailure
  | resolve (hostname : List Char)
  | socketConnect (socket : SocketRole)
  | socketSend (socket : SocketRole) (request : Request)
  | socketClose (socket : SocketRole)
  deriving DecidableEq, Repr

/-- The three peer-event callbacks: `OnPeerConnected`, `OnPeerDisconnected`,
`OnMessageFromPeer`. -/
def Effect.isPeerEvent : Effect → Bool
  | OnPeerConnected _ _ => true
  | OnPeerDisconnected _ => true
  | OnMessageFromPeer _ _ => true
  | _ => false

/-- The data members of `class PeerConnectionClient`, lines 98-112. The observer
`callback_` is the list of `Effect`s each operation returns; `resolver_` and
`safety_` carry no session data. `my_id_` is `none` while unset (section 3,
"SelfIdentity"). -/
structure Client where
  server_address_ : SocketAddress
  control_socket_ : ConnState
  hanging_get_ : ConnState
  onconnect_data_ : Option Request
  control_data_ : List Char
  notification_data_ : List Char
  client_name_ : List Char
  peers_ : Peers
  state_ : State
  my_id_ : Option Int
  deriving DecidableEq, Repr

/-- Modelled from the spec: the constructor `PeerConnectionClient()`: no
session, both sockets closed, every buffer empty. -/
def Client.init : Client :=
  { server_address_ := { hostname := [], port := 0, resolved := none }
    control_socket_ := ConnState.CS_CLOSED
    hanging_get_ := ConnState.CS_CLOSED
    onconnect_data_ := none
    control_data_ := []
    notification_data_ := []
    client_name_ := []
    peers_ := []
    state_ := State.NOT_CONNECTED
    my_id_ := none }

/-- Modelled from the spec: `int id() const`, the client's own identifier
(section 6), unset before sign-in completes. -/
def id (c : Client) : Option Int := c.my_id_

/-- Modelled from the spec: `bool is_connected() const` (section 6): the session
is in its `Connected` state. -/
def is_connected (c : Client) : Bool := decide (c.state_ = State.CONNECTED)

/-- Modelled from the spec: `const Peers& peers() const` (section 6). -/
def peers (c : Client) : Peers := c.peers_

/-- Modelled from the spec: `bool IsSendingMessage()`, the "PendingSend" flag of
section 3: a request is outstanding on the control socket, which is opened
for each request and closed once its response is consumed (section 4.2). -/
def IsSendingMessage (c : Client) : Bool :=
  decide (c.control_socket_ ≠ ConnState.CS_CLOSED)

/-! ### Response parser (specification, section 4.1)

The bodies of the member functions are not in `peer_connection_client.cc`; the
definitions below follow section 4.1 of the specification and keep the names
and argument order of the declarations in `peer_connection_client.h`. -/

/-- Modelled from the spec: the scan behind "Locate end-of-headers" and "Extract
header value" (section 4.1), whose code is not in the repository: the offset of
the first occurrence of `pattern` in `data`, counted from `offset`, as
`std::string::find` reports it. -/
def findFrom (pattern : List Char) : List Char → Nat → Option Nat
  | [], offset => if pattern.isEmpty then some offset else none
  | c :: rest, offset =>
    if pattern.isPrefixOf (c :: rest) then some offset
    else findFrom pattern rest (offset + 1)

/-- Modelled from the spec: the offset of the first occurrence of `pattern` in
`data` (see `findFrom`), `none` when there is none. -/
def find (pattern data : List Char) : Option Nat := findFrom pattern data 0

/-- Modelled from the spec: the "blank-line delimiter separating headers from
body in an HTTP-shaped byte stream" (section 4.1). -/
def kEndOfHeaders : List Char := "\r\n\r\n".toList

/-- Modelled from the spec: the start of the content-length header line, name
and separator (section 8: "`Content-Length: N`"). -/
def kContentLength : List Char := "Content-Length: ".toList

/-- Modelled from the spec: the pattern that finds the content-length header:
the end of the line before it and its start. -/
def kContentLengthHeader : List Char := '\r' :: '\n' :: kContentLength

/-- Modelled from the spec: "Locate end-of-headers" (section 4.1): the offset of
the first blank-line delimiter, `none` ("not yet") while the buffer holds no
complete header block. -/
def findEndOfHeaders (data : List Char) : Option Nat := find kEndOfHeaders data

/-- Modelled from the spec: the number that the decimal digits of a numeric
header value or peer identifier denote (section 4.1). -/
def digitsToNat (digits : List Char) : Nat :=
  digits.foldl (fun acc c => 10 * acc + (c.toNat - '0'.toNat)) 0

/-- Modelled from the spec: a numeric value (section 4.1) is a non-empty run of
decimal digits; any other text is malformed. -/
def parseNat (text : List Char) : Option Nat :=
  if text ≠ [] ∧ text.all Char.isDigit = true then some (digitsToNat text) else none

/-- Modelled from the spec: the header scan shared by the two overloads of
`GetHeaderValue` (section 4.1): the value of the header line that
`header_pattern` starts is the text after the pattern up to the end of that
line, provided the pattern is found before `eoh`. -/
def headerText (data : List Char) (eoh : Nat) (header_pattern : List Char) :
    Option (List Char) :=
  match find header_pattern data with
  | some found =>
    if found < eoh then
      some (((data.drop (found + header_pattern.length)).take
        (eoh - (found + header_pattern.length))).takeWhile (fun c => decide (c ≠ '\r')))
    else none
  | none => none

/-- Modelled from the spec: "Extract header value", numeric overload
`GetHeaderValue(data, eoh, header_pattern, size_t* value)` (section 4.1):
`none` when the header is absent or its value is not a number. -/
def GetHeaderValue (data : List Char) (eoh : Nat) (header_pattern : List Char) :
    Option Nat :=
  (headerText data eoh header_pattern).bind parseNat

/-- Modelled from the spec: "Extract header value", string overload
`GetHeaderValue(data, eoh, header_pattern, std::string* value)`: the raw
value, `none` when the header is absent. -/
def GetHeaderValueString (data : List Char) (eoh : Nat) (header_pattern : List Char) :
    Option (List Char) :=
  headerText data eoh header_pattern

/-- Modelled from the spec: "Extract response status", `int
GetResponseStatus(response)` (section 4.1): the numeric code of a status line
`HTTP/<version> <code> ...`; `-1` is the failure status for a line of any
other shape. -/
def GetResponseStatus (response : List Char) : Int :=
  let line := response.takeWhile (fun c => decide (c ≠ '\r'))
  if "HTTP/".toList.isPrefixOf line then
    match find [' '] line with
    | some pos =>
      let code := (line.drop (pos + 1)).takeWhile Char.isDigit
      if code = [] then -1 else (digitsToNat code : Int)
    | none => -1
  else -1

/-- Modelled from the spec: "Parse server response", `bool
ParseServerResponse(response, content_length, size_t* peer_id, size_t* eoh)`
(section 4.1). `none` is the `false` return: the status is not 200 or the
header block is incomplete. Otherwise the result is `(peer_id, eoh)`, where
`peer_id` is `none` when the response carries no peer-identifier header
("value unknown", not a parse error). The name of that header is not fixed
by the specification: `peer_id_header` is its pattern. -/
def ParseServerResponse (peer_id_header : List Char) (response : List Char)
    (_content_length : Nat) : Option (Option Nat × Nat) :=
  if GetResponseStatus response ≠ 200 then none
  else
    match findEndOfHeaders response with
    | none => none
    | some eoh => some (GetHeaderValue response eoh peer_id_header, eoh)

/-- Modelled from the spec: the fields of a peer-list line `name,id,connected-flag`
(section 4.1) are the pieces between the occurrences of `separator`. -/
def splitOn (separator : Char) : List Char → List (List Char)
  | [] => [[]]
  | c :: rest =>
    if c = separator then [] :: splitOn separator rest
    else
      match splitOn separator rest with
      | [] => [[c]]
      | field :: fields => (c :: field) :: fields

/-- Modelled from the spec: the connected flag of a peer-list entry, written
`true` or `false` as in the example body of section 8. -/
def parseFlag (text : List Char) : Option Bool :=
  if text = "true".toList then some true
  else if text = "false".toList then some false
  else none

/-- Modelled from the spec: "Parse peer-list entry", `bool ParseEntry(entry,
std::string* name, int* id, bool* connected)` (section 4.1): a line
`name,id,connected-flag` with a non-empty name, a numeric id and a boolean
flag. `none` is the `false` return for a malformed line. -/
def ParseEntry (entry : List Char) : Option (List Char × Int × Bool) :=
  match splitOn ',' entry with
  | [name, id, connected] =>
    if name = [] then none
    else
      match parseNat id, parseFlag connected with
      | some n, some flag => some (name, (n : Int), flag)
      | _, _ => none
  | _ => none

/-- Modelled from the spec: the lines of a "newline-delimited peer-list"
(section 6): every line that a `'\n'` ends, and the text after the last `'\n'`
when there is some. -/
def bodyLines : List Char → List (List Char)
  | [] => []
  | c :: rest =>
    if c = '\n' then [] :: bodyLines rest
    else
      match bodyLines rest with
      | [] => [[c]]
      | line :: lines => (c :: line) :: lines

/-- Modelled from the spec: the caller of `ParseEntry` on a peer-list body
(section 4.1): each line is parsed on its own and a malformed line is skipped
"rather than aborting the whole parse". -/
def ParsePeerList (body : List Char) : List (List Char × Int × Bool) :=
  (bodyLines body).filterMap ParseEntry

/-- Modelled from the spec: the text of a connected flag, `true` or `false`
(section 8). -/
def flagText (connected : Bool) : List Char :=
  if connected then "true".toList else "false".toList

/-- Modelled from the spec's words: a line "of the form `name,id,connected-flag`"
(section 4.1) with a non-empty name, a numeric id and a boolean flag; the
fields are what the commas separate. -/
def WellFormedEntry (line : List Char) (name : List Char) (id : Int) (connected : Bool) : Prop :=
  ∃ digits : List Char,
    line = name ++ ',' :: (digits ++ ',' :: flagText connected) ∧
    name ≠ [] ∧ ',' ∉ name ∧
    digits ≠ [] ∧ (∀ d ∈ digits, d.isDigit = true) ∧ id = (digitsToNat digits : Int)

/-- Modelled from the spec: the header lines of an HTTP-shaped message
(section 6, "Wire format"), each after the CR LF that ends the line before
it. -/
def joinHeaderLines : List (List Char) → List Char
  | [] => []
  | line :: rest => '\r' :: '\n' :: (line ++ joinHeaderLines rest)

/-- Modelled from the spec: an HTTP-shaped message (section 6, "Wire format"): the
status line, the header lines, the blank line and the body. -/
def httpShaped (status_line : List Char) (header_lines : List (List Char))
    (body : List Char) : List Char :=
  status_line ++ (joinHeaderLines header_lines ++ (kEndOfHeaders ++ body))

/-- Modelled from the spec: the size of the message at the front of `data`
(sections 3 "InboundBuffer" and 4.1): header block, blank line and as many body
bytes as the content length says; returned with the content length. `none`
while the header block is incomplete or names no content length. -/
def messageSize (data : List Char) : Option (Nat × Nat) :=
  match findEndOfHeaders data with
  | none => none
  | some eoh =>
    match GetHeaderValue data eoh kContentLengthHeader with
    | none => none
    | some content_length => some (eoh + 4 + content_length, content_length)

/-- Modelled from the spec: `bool ReadIntoBuffer(socket, std::string* data,
size_t* content_length)` (sections 3 "InboundBuffer" and 4.1): the bytes
`received` from the socket are appended to `data`; the result is `true` once
the buffer holds a complete header block and all the body bytes that its
content length announces. Returns the flag, the grown buffer and the content
length. -/
def ReadIntoBuffer (received : List Char) (data : List Char) : Bool × List Char × Nat :=
  let grown := data ++ received
  match messageSize grown with
  | none => (false, grown, 0)
  | some (total, content_length) => (decide (total ≤ grown.length), grown, content_length)

/-! ### Session engine (specification, sections 4.2 and 4.3)

Every operation takes the client and returns the client after it together with
the effects it caused, in order: observer callbacks and calls on the resolver
and the sockets. -/

/-- Modelled from the spec: the `socketClose` calls that `Close()` makes
(section 4.3, transition 5: "close both sockets"): one per socket that is
open. -/
def closeCalls (c : Client) : List Effect :=
  (if c.control_socket_ = ConnState.CS_CLOSED then []
    else [Effect.socketClose SocketRole.control]) ++
  (if c.hanging_get_ = ConnState.CS_CLOSED then []
    else [Effect.socketClose SocketRole.hangingGet])

/-- Modelled from the spec: `void Close()` (section 3, "Lifecycle", and
section 4.2): both sockets are closed, every buffer is cleared, the peer
registry and the own identifier are reset and the state is `NOT_CONNECTED`. -/
def Close (c : Client) : Client × List Effect :=
  ({ c with
      control_socket_ := ConnState.CS_CLOSED
      hanging_get_ := ConnState.CS_CLOSED
      onconnect_data_ := none
      control_data_ := []
      notification_data_ := []
      peers_ := []
      my_id_ := none
      state_ := State.NOT_CONNECTED },
   closeCalls c)

/-- Modelled from the spec: the end of a session that failed (section 4.3,
transitions 2, 3 and 6): `Close()`, then the server-connection failure and the
disconnection are reported. -/
def abortSession (c : Client) : Client × List Effect :=
  ((Close c).1, (Close c).2 ++ [Effect.OnServerConnectionFailure, Effect.OnDisconnected])

/-- Modelled from the spec: `void ConnectControlSocket()` (section 4.2): the
control socket is opened for the request held in `onconnect_data_`. -/
def ConnectControlSocket (c : Client) : Client × List Effect :=
  ({ c with control_socket_ := ConnState.CS_CONNECTING },
   [Effect.socketConnect SocketRole.control])

/-- Modelled from the spec: `void DoConnect()` (section 4.3, transition 2): after
resolution the control socket is opened for the sign-in request. -/
def DoConnect (c : Client) : Client × List Effect :=
  ConnectControlSocket
    { c with onconnect_data_ := some (Request.signIn c.client_name_)
             state_ := State.SIGNING_IN }

/-- Modelled from the spec: `void Connect(server, port, client_name)`
(section 4.3, transition 1): from `NOT_CONNECTED`, with a host and a name that
are not empty, the request is stored and resolution starts. Any other call is
invalid usage: it is reported and changes nothing. -/
def Connect (c : Client) (server : List Char) (port : Int) (client_name : List Char) :
    Client × List Effect :=
  if c.state_ ≠ State.NOT_CONNECTED ∨ server = [] ∨ client_name = [] then
    (c, [Effect.OnServerConnectionFailure])
  else
    ({ c with
        server_address_ := { hostname := server, port := port, resolved := none }
        client_name_ := client_name
        state_ := State.RESOLVING },
     [Effect.resolve server])

/-- Modelled from the spec: `void OnResolveResult(result)` (section 4.3,
transition 2); `result` is the resolved endpoint, `none` when resolution
failed. A result that arrives outside `RESOLVING` is ignored (section 5,
"Cancellation"). -/
def OnResolveResult (c : Client) (result : Option (List Char)) : Client × List Effect :=
  if c.state_ ≠ State.RESOLVING then (c, [])
  else
    match result with
    | none => abortSession c
    | some endpoint =>
      DoConnect { c with server_address_ := { c.server_address_ with resolved := some endpoint } }

/-- Modelled from the spec: `bool SendToPeer(peer_id, message)` (section 4.3,
state 4, and section 7, "Invalid caller usage"): accepted only in `CONNECTED`,
with no request pending and for a peer of the registry; a rejected call does
nothing. An accepted call stores the request and opens the control socket. -/
def SendToPeer (c : Client) (peer_id : Int) (message : List Char) :
    Bool × Client × List Effect :=
  if c.state_ ≠ State.CONNECTED then (false, c, [])
  else if IsSendingMessage c = true then (false, c, [])
  else if Peers.has c.peers_ peer_id = false then (false, c, [])
  else
    let connecting := ConnectControlSocket
      { c with onconnect_data_ := some (Request.message c.my_id_ peer_id message) }
    (true, connecting.1, connecting.2)

/-- Modelled from the spec: `bool SendHangUp(peer_id)` (section 4.3, state 4:
"same precondition"): the sign-off sentinel sent as a message. -/
def SendHangUp (c : Client) (peer_id : Int) : Bool × Client × List Effect :=
  SendToPeer c peer_id kByeMessage

/-- Modelled from the spec: the sign-out request is issued on the control
socket (section 4.3, transition 5), state `SIGNING_OUT`. -/
def issueSignOut (c : Client) : Client × List Effect :=
  ConnectControlSocket
    { c with onconnect_data_ := some (Request.signOut c.my_id_)
             state_ := State.SIGNING_OUT }

/-- Modelled from the spec: `bool SignOut()` (section 4.3, transition 5, and
section 7): rejected while never signed in; in `CONNECTED` the sign-out request
is issued at once when the control socket is free, and is deferred through
`SIGNING_OUT_WAITING` when a request is pending; a sign-out already under way
is left to run. -/
def SignOut (c : Client) : Bool × Client × List Effect :=
  match c.state_ with
  | State.NOT_CONNECTED => (false, c, [])
  | State.RESOLVING => (false, c, [])
  | State.SIGNING_IN => (false, c, [])
  | State.CONNECTED =>
    if IsSendingMessage c = true then
      (true, { c with state_ := State.SIGNING_OUT_WAITING }, [])
    else (true, (issueSignOut c).1, (issueSignOut c).2)
  | State.SIGNING_OUT_WAITING => (true, c, [])
  | State.SIGNING_OUT => (true, c, [])

/-- Modelled from the spec: `void OnConnect(rtc::Socket* socket)` (section 4.2):
the control socket is connected and the request held in `onconnect_data_` is
sent. A completion that arrives for a socket which is not connecting is
ignored (section 5, "Cancellation"). -/
def OnConnect (c : Client) : Client × List Effect :=
  if c.control_socket_ ≠ ConnState.CS_CONNECTING then (c, [])
  else
    match c.onconnect_data_ with
    | none => ({ c with control_socket_ := ConnState.CS_CONNECTED }, [])
    | some request =>
      ({ c with control_socket_ := ConnState.CS_CONNECTED, onconnect_data_ := none },
       [Effect.socketSend SocketRole.control request])

/-- Modelled from the spec: `void OnHangingGetConnect()` (section 4.2): the
notification socket is connected and the long-poll request is sent. -/
def OnHangingGetConnect (c : Client) : Client × List Effect :=
  if c.hanging_get_ ≠ ConnState.CS_CONNECTING then (c, [])
  else
    ({ c with hanging_get_ := ConnState.CS_CONNECTED },
     [Effect.socketSend SocketRole.hangingGet (Request.wait c.my_id_)])

/-- Modelled from the spec: `void OnMessageFromPeer(peer_id, message)`
(section 4.3, state 4): the payload goes to the observer as a message from the
peer, unless it is the sign-off sentinel, which is a hang-up by that peer. -/
def OnMessageFromPeer (peer_id : Int) (message : List Char) : List Effect :=
  if message = kByeMessage then [Effect.OnPeerDisconnected peer_id]
  else [Effect.OnMessageFromPeer peer_id message]

/-- Modelled from the spec: the body of the message at the front of `data`
(section 4.1): `content_length` bytes after the blank line at `eoh`. -/
def messageBody (data : List Char) (eoh content_length : Nat) : List Char :=
  (data.drop (eoh + 4)).take content_length

/-- Modelled from the spec: what one peer-list entry does to the registry
(sections 3 "PeerRegistry" and 4.3): a peer whose flag says connected is
entered under its identifier, a peer whose flag says otherwise is not a member. -/
def updateRegistry (peers : Peers) (entry : List Char × Int × Bool) : Peers :=
  if entry.2.2 = true then Peers.assign peers entry.2.1 entry.1
  else Peers.remove peers entry.2.1

/-- Modelled from the spec: the peer list of the sign-in response populates the
registry (section 4.3, transition 3); the registry holds the other peers, so
the entry of the client itself is left out. -/
def addPeers (my_id : Int) (entries : List (List Char × Int × Bool)) (peers : Peers) : Peers :=
  entries.foldl
    (fun registry entry => if entry.2.1 = my_id then registry else updateRegistry registry entry)
    peers

/-- Modelled from the spec: the response to the sign-in request has been read
whole (section 4.3, transition 3). With status 200 and a peer identifier the
client is signed in, the registry is populated and the notification socket is
opened; otherwise the session is aborted. -/
def onSignInResponse (peer_id_header : List Char) (c : Client) (response : List Char)
    (content_length : Nat) : Client × List Effect :=
  match ParseServerResponse peer_id_header response content_length with
  | some (some peer_id, eoh) =>
    ({ c with
        my_id_ := some (peer_id : Int)
        peers_ := addPeers (peer_id : Int)
          (ParsePeerList (messageBody response eoh content_length)) c.peers_
        state_ := State.CONNECTED
        hanging_get_ := ConnState.CS_CONNECTING },
     [Effect.socketConnect SocketRole.hangingGet, Effect.OnSignedIn])
  | _ => abortSession c

/-- Modelled from the spec: `void OnRead(rtc::Socket* socket)` on the control
socket (sections 4.2 and 4.3); `received` is what the socket delivers. Until
the response is complete only the buffer grows. A complete response is
consumed: the control socket is closed, its buffer cleared, and the state
decides what the response ends: the sign-in, a pending send, the wait before
sign-out, or the sign-out itself. -/
def OnRead (peer_id_header : List Char) (c : Client) (received : List Char) :
    Client × List Effect :=
  if c.control_socket_ ≠ ConnState.CS_CONNECTED then (c, [])
  else
    match ReadIntoBuffer received c.control_data_ with
    | (false, data, _) => ({ c with control_data_ := data }, [])
    | (true, data, content_length) =>
      let consumed : Client :=
        { c with control_data_ := [], control_socket_ := ConnState.CS_CLOSED }
      let closing : List Effect := [Effect.socketClose SocketRole.control]
      match c.state_ with
      | State.SIGNING_IN =>
        let next := onSignInResponse peer_id_header consumed data content_length
        (next.1, closing ++ next.2)
      | State.CONNECTED =>
        (consumed, closing ++ [Effect.OnMessageSent
          (if GetResponseStatus data = 200 then 0 else GetResponseStatus data)])
      | State.SIGNING_OUT_WAITING =>
        ((issueSignOut consumed).1, closing ++ (issueSignOut consumed).2)
      | State.SIGNING_OUT =>
        ((Close consumed).1, closing ++ (Close consumed).2 ++ [Effect.OnDisconnected])
      | _ => (consumed, closing)

/-- Modelled from the spec: one registry notification (section 4.3, state 4): a
peer that joined is added and reported connected, a peer that left is removed
and reported disconnected. -/
def applyEntry (acc : Peers × List Effect) (entry : List Char × Int × Bool) :
    Peers × List Effect :=
  (updateRegistry acc.1 entry,
   acc.2 ++ [if entry.2.2 = true then Effect.OnPeerConnected entry.2.1 entry.1
             else Effect.OnPeerDisconnected entry.2.1])

/-- Modelled from the spec: a complete event of the notification socket
(section 4.3, state 4). An event that carries the client's own identifier is a
registry notification, its body a peer list; an event that carries another
identifier is a message from that peer. An event without status 200 or
without identifier is skipped. -/
def onNotification (peer_id_header : List Char) (c : Client) (event : List Char)
    (content_length : Nat) : Client × List Effect :=
  match ParseServerResponse peer_id_header event content_length with
  | some (some peer_id, eoh) =>
    if c.my_id_ = some (peer_id : Int) then
      let applied := (ParsePeerList (messageBody event eoh content_length)).foldl
        applyEntry (c.peers_, [])
      ({ c with peers_ := applied.1 }, applied.2)
    else
      (c, OnMessageFromPeer (peer_id : Int) (messageBody event eoh content_length))
  | _ => (c, [])

/-- Modelled from the spec: `void OnHangingGetRead(rtc::Socket* socket)`
(sections 3 "InboundBuffer", 4.2 and 4.3); `received` is what the notification
socket delivers. Until an event is complete only the buffer grows; a complete
event is removed from the front of the buffer and, in `CONNECTED` only, handed
to the engine. -/
def OnHangingGetRead (peer_id_header : List Char) (c : Client) (received : List Char) :
    Client × List Effect :=
  if c.hanging_get_ ≠ ConnState.CS_CONNECTED then (c, [])
  else
    match ReadIntoBuffer received c.notification_data_ with
    | (false, data, _) => ({ c with notification_data_ := data }, [])
    | (true, data, content_length) =>
      let rest := data.drop (((messageSize data).map Prod.fst).getD data.length)
      let consumed : Client := { c with notification_data_ := rest }
      if c.state_ = State.CONNECTED then
        onNotification peer_id_header consumed data content_length
      else (consumed, [])

/-- Modelled from the spec: `void OnClose(rtc::Socket* socket, int err)`
(sections 4.2, 4.3 transition 6, and 7): the one shutdown path of a socket,
which clears the buffers of that socket. The specification leaves the bound on
retries open (section 9); `give_up` is the verdict of that policy: the bound is
exceeded. On the notification socket a close in `CONNECTED` reopens the
socket. On the control socket a close fails the request in flight: the sign-in
aborts the session, a pending send is reported failed, the wait before
sign-out ends and sign-out is issued, the sign-out completes. -/
def OnClose (c : Client) (socket : SocketRole) (err : Int) (give_up : Bool) :
    Client × List Effect :=
  match socket with
  | SocketRole.control =>
    if c.control_socket_ = ConnState.CS_CLOSED then (c, [])
    else
      let closed : Client :=
        { c with control_socket_ := ConnState.CS_CLOSED
                 control_data_ := []
                 onconnect_data_ := none }
      match c.state_ with
      | State.SIGNING_IN => abortSession closed
      | State.CONNECTED =>
        if give_up = true then abortSession closed
        else (closed, [Effect.OnMessageSent err])
      | State.SIGNING_OUT_WAITING => issueSignOut closed
      | State.SIGNING_OUT => ((Close closed).1, (Close closed).2 ++ [Effect.OnDisconnected])
      | _ => (closed, [])
  | SocketRole.hangingGet =>
    if c.hanging_get_ = ConnState.CS_CLOSED then (c, [])
    else
      let closed : Client :=
        { c with hanging_get_ := ConnState.CS_CLOSED, notification_data_ := [] }
      if c.state_ = State.CONNECTED then
        if give_up = true then abortSession closed
        else
          ({ closed with hanging_get_ := ConnState.CS_CONNECTING },
           [Effect.socketConnect SocketRole.hangingGet])
      else (closed, [])

/-- Modelled from the spec: what can happen to the engine (sections 5 and 6): a
call of the application on the public interface, or a completion delivered by
a collaborator (resolver, socket). -/
inductive Step where
  | Connect (server : List Char) (port : Int) (client_name : List Char)
  | SendToPeer (peer_id : Int) (message : List Char)
  | SendHangUp (peer_id : Int)
  | SignOut
  | OnResolveResult (result : Option (List Char))
  | OnConnect
  | OnHangingGetConnect
  | OnRead (received : List Char)
  | OnHangingGetRead (received : List Char)
  | OnClose (socket : SocketRole) (err : Int) (give_up : Bool)
  deriving DecidableEq, Repr

/-- Modelled from the spec: one engine step dispatches to the member function
it names; the result is the client after it and the effects it caused. -/
def step (peer_id_header : List Char) (c : Client) : Step → Client × List Effect
  | Step.Connect server port client_name => Connect c server port client_name
  | Step.SendToPeer peer_id message => (SendToPeer c peer_id message).2
  | Step.SendHangUp peer_id => (SendHangUp c peer_id).2
  | Step.SignOut => (SignOut c).2
  | Step.OnResolveResult result => OnResolveResult c result
  | Step.OnConnect => OnConnect c
  | Step.OnHangingGetConnect => OnHangingGetConnect c
  | Step.OnRead received => OnRead peer_id_header c received
  | Step.OnHangingGetRead received => OnHangingGetRead peer_id_header c received
  | Step.OnClose socket err give_up => OnClose c socket err give_up

/-- Modelled from the spec: the client after a sequence of steps (section 5:
a single logical session driven by one event at a time). -/
def run (peer_id_header : List Char) (c : Client) : List Step → Client
  | [] => c
  | s :: rest => run peer_id_header (step peer_id_header c s).1 rest

/-- Modelled from the spec: the log of a sequence of steps: for each step, the
state in which it was taken, the effects it caused and the state it left. -/
def trace (peer_id_header : List Char) (c : Client) :
    List Step → List (State × List Effect × State)
  | [] => []
  | s :: rest =>
    (c.state_, (step peer_id_header c s).2, (step peer_id_header c s).1.state_) ::
      trace peer_id_header (step peer_id_header c s).1 rest

/-- No effect of the list is a peer event. -/
def Quiet (effects : List Effect) : Prop := ∀ e ∈ effects, e.isPeerEvent = false

/-- Before sign-in completes there is no session data: the registry is empty
and the own identifier unset. -/
def NoSessionBeforeSignIn (c : Client) : Prop :=
  (c.state_ = State.NOT_CONNECTED ∨ c.state_ = State.RESOLVING ∨ c.state_ = State.SIGNING_IN) →
    c.peers_ = [] ∧ c.my_id_ = none

/-- The session data is cleared: empty registry, no own identifier, state
`NOT_CONNECTED`. -/
def Cleared (c : Client) : Prop :=
  c.peers_ = [] ∧ c.my_id_ = none ∧ c.state_ = State.NOT_CONNECTED

/-! ### Sample data

Concrete clients and wire data on which the theorems below are exercised. -/

/-- A peer-identifier header pattern: the `Pragma` header. -/
def samplePeerIdHeader : List Char := "\r\nPragma: ".toList

/-- A client signed in as peer 7 that knows the peers 2 and 3, with the
notification socket open and the control socket free. -/
def sampleSignedIn : Client :=
  { Client.init with
      state_ := State.CONNECTED
      my_id_ := some 7
      hanging_get_ := ConnState.CS_CONNECTED
      client_name_ := "me".toList
      peers_ := [(2, "alice".toList), (3, "bob".toList)] }

/-- A sign-in response: status 200, peer identifier 7, empty peer list. -/
def sampleSignInResponse : List Char :=
  "HTTP/1.0 200 OK\r\nPragma: 7\r\nContent-Length: 0\r\n\r\n".toList

/-- A registry notification for client 7: peer 4, carol, joined. -/
def sampleJoined : List Char :=
  "HTTP/1.0 200 OK\r\nPragma: 7\r\nContent-Length: 13\r\n\r\ncarol,4,true\n".toList

/-- A session from the constructor to the first notification: connect,
resolve, sign in, open the notification socket, learn that carol joined. -/
def sampleSession : List Step :=
  [Step.Connect "server".toList 8888 "me".toList,
   Step.OnResolveResult (some "10.0.0.1".toList),
   Step.OnConnect,
   Step.OnRead sampleSignInResponse,
   Step.OnHangingGetConnect,
   Step.OnHangingGetRead sampleJoined]

/-- A message from peer 2 of which the last two of five body bytes are missing. -/
def samplePartial : List Char :=
  "HTTP/1.0 200 OK\r\nPragma: 2\r\nContent-Length: 5\r\n\r\nhel".toList

/-- A response with status 200 and an empty body. -/
def sampleOk : List Char := "HTTP/1.0 200 OK\r\nContent-Length: 0\r\n\r\n".toList

/-- The signed-in client after it accepted a message for peer 2: a request is
pending on the control socket. -/
def samplePending : Client := (SendToPeer sampleSignedIn 2 "hi".toList).2.1

/-- A message from peer 2 whose payload is the sign-off sentinel. -/
def sampleBye : List Char :=
  "HTTP/1.0 200 OK\r\nPragma: 2\r\nContent-Length: 3\r\n\r\nBYE".toList

/-- A message from peer 2 with the payload `hello`. -/
def sampleHello : List Char :=
  "HTTP/1.0 200 OK\r\nPragma: 2\r\nContent-Length: 5\r\n\r\nhello".toList

end PeerConnectionClient

/-! ## Theorems -/

namespace webrtc

/-- C9: for every `ScalabilityMode` each of the four lookups returns through one
of its `case` arms (it never reaches `RTC_CHECK_NOTREACHED()`), and the spatial
and temporal layer counts returned are 1, 2 or 3. -/
theorem scalability_lookups_total (m : ScalabilityMode) :
    (∃ s, ScalabilityModeToNumSpatialLayers m = some s ∧ (s = 1 ∨ s = 2 ∨ s = 3)) ∧
    (∃ t, ScalabilityModeToNumTemporalLayers m = some t ∧ (t = 1 ∨ t = 2 ∨ t = 3)) ∧
    (∃ p, ScalabilityModeToInterLayerPredMode m = some p) ∧
    (∃ r, ScalabilityModeToResolutionRatio m = some r) := by
  cases m <;> simp [ScalabilityModeToNumSpatialLayers, ScalabilityModeToNumTemporalLayers,
    ScalabilityModeToInterLayerPredMode, ScalabilityModeToResolutionRatio, switchCase]

/-- C10: with one spatial layer, `MakeScalabilityMode` returns `kL1T1`, `kL1T2`
or `kL1T3` according to the number of temporal layers (1, 2 or 3), whatever the
inter-layer prediction mode, the optional ratio and the shift flag. -/
theorem MakeScalabilityMode_one_spatial_layer (inter_layer_pred : InterLayerPredMode)
    (ratio : Option ScalabilityModeResolutionRatio) (shift : Bool) :
    MakeScalabilityMode 1 1 inter_layer_pred ratio shift = some (some ScalabilityMode.kL1T1) ∧
    MakeScalabilityMode 1 2 inter_layer_pred ratio shift = some (some ScalabilityMode.kL1T2) ∧
    MakeScalabilityMode 1 3 inter_layer_pred ratio shift = some (some ScalabilityMode.kL1T3) := by
  cases inter_layer_pred <;> rcases ratio with _ | _ | _ <;> cases shift <;> decide

end webrtc

namespace PeerConnectionClient

/-! ### Registry and send preconditions -/

theorem Peers.has_eq_false_of_not_key (peers : Peers) (id : Int)
    (h : id ∉ peers.map Prod.fst) : Peers.has peers id = false := by
  induction peers with
  | nil => rfl
  | cons entry rest ih =>
    simp only [List.map_cons, List.mem_cons, not_or] at h
    simp only [Peers.has, List.any_cons, Bool.or_eq_false_iff, decide_eq_false_iff_not]
    exact ⟨fun heq => h.1 heq.symm, ih h.2⟩

theorem Peers.has_eq_true_of_key (peers : Peers) (id : Int)
    (h : id ∈ peers.map Prod.fst) : Peers.has peers id = true := by
  induction peers with
  | nil => simp at h
  | cons entry rest ih =>
    simp only [List.map_cons, List.mem_cons] at h
    simp only [Peers.has, List.any_cons, Bool.or_eq_true, decide_eq_true_eq]
    rcases h with h | h
    · exact Or.inl h.symm
    · exact Or.inr (ih h)

theorem SendToPeer_rejected_of_pending (c : Client) (peer_id : Int) (message : List Char)
    (h : IsSendingMessage c = true) : SendToPeer c peer_id message = (false, c, []) := by
  unfold SendToPeer
  split_ifs <;> rfl

/-- C1: `SendToPeer` for a `peer_id` that is no key of `peers_` returns `false`,
whatever the message and the session state, leaves the client (state, registry,
buffers, sockets) as it was and causes no effect, so no network request. -/
theorem SendToPeer_unknown_peer (c : Client) (peer_id : Int) (message : List Char)
    (h : peer_id ∉ c.peers_.map Prod.fst) :
    SendToPeer c peer_id message = (false, c, []) := by
  have hhas := Peers.has_eq_false_of_not_key c.peers_ peer_id h
  unfold SendToPeer
  split_ifs <;> rfl

theorem SendToPeer_unknown_peer_witness :
    SendToPeer sampleSignedIn 5 "hi".toList = (false, sampleSignedIn, []) :=
  SendToPeer_unknown_peer sampleSignedIn 5 "hi".toList (by decide)

/-- C2: in `CONNECTED` with no request pending, `SendToPeer` for a peer of the
registry is accepted: it returns `true`, `IsSendingMessage()` becomes `true` and
the request is the one held for the control socket. Until the response is
consumed (right after the call, after the socket connected and sent the first
request, after a part of the response arrived) a second `SendToPeer` returns
`false` and leaves the client, so the first request, as it was. -/
theorem SendToPeer_twice (peer_id_header : List Char) (c : Client)
    (first second : Int) (message message2 : List Char)
    (hstate : c.state_ = State.CONNECTED) (hfree : IsSendingMessage c = false)
    (hkey : first ∈ c.peers_.map Prod.fst) :
    (SendToPeer c first message).1 = true ∧
    IsSendingMessage (SendToPeer c first message).2.1 = true ∧
    (SendToPeer c first message).2.1.onconnect_data_ =
      some (Request.message c.my_id_ first message) ∧
    SendToPeer (SendToPeer c first message).2.1 second message2 =
      (false, (SendToPeer c first message).2.1, []) ∧
    (OnConnect (SendToPeer c first message).2.1).2 =
      [Effect.socketSend SocketRole.control (Request.message c.my_id_ first message)] ∧
    SendToPeer (OnConnect (SendToPeer c first message).2.1).1 second message2 =
      (false, (OnConnect (SendToPeer c first message).2.1).1, []) ∧
    ∀ received : List Char,
      (ReadIntoBuffer received (OnConnect (SendToPeer c first message).2.1).1.control_data_).1
          = false →
      SendToPeer
          (OnRead peer_id_header (OnConnect (SendToPeer c first message).2.1).1 received).1
          second message2 =
        (false, (OnRead peer_id_header (OnConnect (SendToPeer c first message).2.1).1
          received).1, []) := by
  have hpeer := Peers.has_eq_true_of_key c.peers_ first hkey
  have hsend : SendToPeer c first message =
      (true, { c with onconnect_data_ := some (Request.message c.my_id_ first message),
                      control_socket_ := ConnState.CS_CONNECTING },
       [Effect.socketConnect SocketRole.control]) := by
    unfold SendToPeer
    rw [if_neg (by simp [hstate]), if_neg (by simp [hfree]), if_neg (by simp [hpeer])]
    rfl
  rw [hsend]
  refine ⟨rfl, rfl, rfl, SendToPeer_rejected_of_pending _ _ _ rfl, rfl,
    SendToPeer_rejected_of_pending _ _ _ rfl, ?_⟩
  intro received hincomplete
  apply SendToPeer_rejected_of_pending
  have hconn : OnConnect { c with onconnect_data_ := some (Request.message c.my_id_ first message),
                                  control_socket_ := ConnState.CS_CONNECTING } =
      ({ c with onconnect_data_ := none, control_socket_ := ConnState.CS_CONNECTED },
       [Effect.socketSend SocketRole.control (Request.message c.my_id_ first message)]) := rfl
  simp only [hconn] at hincomplete ⊢
  unfold OnRead
  simp only [ne_eq, not_true_eq_false, if_false]
  rcases hread : ReadIntoBuffer received c.control_data_ with ⟨complete, data, len⟩
  rw [hread] at hincomplete
  simp only at hincomplete
  subst hincomplete
  rfl

theorem SendToPeer_twice_witness :
    (SendToPeer sampleSignedIn 2 "hi".toList).1 = true ∧
    SendToPeer (SendToPeer sampleSignedIn 2 "hi".toList).2.1 3 "yo".toList =
      (false, (SendToPeer sampleSignedIn 2 "hi".toList).2.1, []) :=
  have h := SendToPeer_twice samplePeerIdHeader sampleSignedIn 2 3 "hi".toList "yo".toList
    (by decide) (by decide) (by decide)
  ⟨h.1, h.2.2.2.1⟩

/-- C8: `State` has exactly six values, pairwise distinct, numbered 0 to 5 in
declaration order, and they are, in that order, the six session states the
specification lists; a client holds exactly one of them in `state_`. -/
theorem State_six_values :
    State.all.length = 6 ∧ State.all.Nodup ∧ (∀ s : State, s ∈ State.all) ∧
    State.all.map State.value = [0, 1, 2, 3, 4, 5] ∧
    State.all.map State.toSessionState = SessionState.all ∧
    SessionState.all.Nodup ∧ (∀ s : SessionState, s ∈ SessionState.all) ∧
    (∀ c : Client, State.all.count c.state_ = 1) := by
  refine ⟨rfl, by decide, ?_, rfl, rfl, by decide, ?_, ?_⟩
  · intro s; cases s <;> decide
  · intro s; cases s <;> decide
  · intro c; cases c.state_ <;> decide

end PeerConnectionClient

namespace PeerConnectionClient

/-! ### Peer events and the session state -/

theorem Quiet.nil : Quiet [] := by intro e he; cases he

theorem Quiet.append {a b : List Effect} (ha : Quiet a) (hb : Quiet b) : Quiet (a ++ b) := by
  intro e he
  rcases List.mem_append.mp he with h | h
  · exact ha e h
  · exact hb e h

theorem Quiet.of_all {a : List Effect} (h : a.all (fun e => !e.isPeerEvent) = true) : Quiet a := by
  intro e he
  have := List.all_eq_true.mp h e he
  simpa using this

theorem closeCalls_quiet (c : Client) : Quiet (closeCalls c) := by
  unfold closeCalls
  split_ifs <;> exact Quiet.of_all rfl

theorem Close_quiet (c : Client) : Quiet (Close c).2 := closeCalls_quiet c

theorem abortSession_quiet (c : Client) : Quiet (abortSession c).2 :=
  Quiet.append (Close_quiet c) (Quiet.of_all rfl)

theorem issueSignOut_quiet (c : Client) : Quiet (issueSignOut c).2 := Quiet.of_all rfl

theorem Connect_quiet (c : Client) (server : List Char) (port : Int) (name : List Char) :
    Quiet (Connect c server port name).2 := by
  unfold Connect
  split_ifs <;> exact Quiet.of_all rfl

theorem OnResolveResult_quiet (c : Client) (result : Option (List Char)) :
    Quiet (OnResolveResult c result).2 := by
  unfold OnResolveResult
  split_ifs
  · exact Quiet.nil
  · cases result
    · exact abortSession_quiet c
    · exact Quiet.of_all rfl

theorem SendToPeer_quiet (c : Client) (peer_id : Int) (message : List Char) :
    Quiet (SendToPeer c peer_id message).2.2 := by
  unfold SendToPeer
  split_ifs <;> exact Quiet.of_all rfl

theorem SignOut_quiet (c : Client) : Quiet (SignOut c).2.2 := by
  unfold SignOut
  split <;> try exact Quiet.nil
  split_ifs
  · exact Quiet.nil
  · exact issueSignOut_quiet c

theorem OnConnect_quiet (c : Client) : Quiet (OnConnect c).2 := by
  unfold OnConnect
  split_ifs
  · exact Quiet.nil
  · split <;> exact Quiet.of_all rfl

theorem OnHangingGetConnect_quiet (c : Client) : Quiet (OnHangingGetConnect c).2 := by
  unfold OnHangingGetConnect
  split_ifs <;> exact Quiet.of_all rfl

theorem onSignInResponse_quiet (h : List Char) (c : Client) (response : List Char) (n : Nat) :
    Quiet (onSignInResponse h c response n).2 := by
  unfold onSignInResponse
  split
  · exact Quiet.of_all rfl
  · exact abortSession_quiet c

theorem OnRead_quiet (h : List Char) (c : Client) (received : List Char) :
    Quiet (OnRead h c received).2 := by
  unfold OnRead
  split_ifs
  · exact Quiet.nil
  · split
    · exact Quiet.nil
    · split
      · exact Quiet.append (Quiet.of_all rfl) (onSignInResponse_quiet _ _ _ _)
      · exact Quiet.append (Quiet.of_all rfl) (Quiet.of_all rfl)
      · exact Quiet.append (Quiet.of_all rfl) (issueSignOut_quiet _)
      · exact Quiet.append (Quiet.append (Quiet.of_all rfl) (Close_quiet _)) (Quiet.of_all rfl)
      · exact Quiet.of_all rfl

theorem OnClose_quiet (c : Client) (socket : SocketRole) (err : Int) (give_up : Bool) :
    Quiet (OnClose c socket err give_up).2 := by
  unfold OnClose
  cases socket with
  | control =>
    dsimp only
    by_cases hsock : c.control_socket_ = ConnState.CS_CLOSED
    · rw [if_pos hsock]; exact Quiet.nil
    · rw [if_neg hsock]
      split
      · exact abortSession_quiet _
      · by_cases hgive : give_up = true
        · rw [if_pos hgive]; exact abortSession_quiet _
        · rw [if_neg hgive]; exact Quiet.of_all rfl
      · exact issueSignOut_quiet _
      · exact Quiet.append (Close_quiet _) (Quiet.of_all rfl)
      · exact Quiet.nil
  | hangingGet =>
    dsimp only
    by_cases hsock : c.hanging_get_ = ConnState.CS_CLOSED
    · rw [if_pos hsock]; exact Quiet.nil
    · rw [if_neg hsock]
      by_cases hstate : c.state_ = State.CONNECTED
      · rw [if_pos hstate]
        by_cases hgive : give_up = true
        · rw [if_pos hgive]; exact abortSession_quiet _
        · rw [if_neg hgive]; exact Quiet.of_all rfl
      · rw [if_neg hstate]; exact Quiet.nil

theorem onNotification_state (h : List Char) (c : Client) (event : List Char) (n : Nat) :
    (onNotification h c event n).1.state_ = c.state_ := by
  unfold onNotification
  split
  · split_ifs <;> rfl
  · rfl

theorem OnHangingGetRead_connected (h : List Char) (c : Client) (received : List Char)
    (e : Effect) (he : e ∈ (OnHangingGetRead h c received).2) :
    c.state_ = State.CONNECTED ∧ (OnHangingGetRead h c received).1.state_ = State.CONNECTED := by
  unfold OnHangingGetRead at he ⊢
  by_cases hsock : c.hanging_get_ ≠ ConnState.CS_CONNECTED
  · rw [if_pos hsock] at he; cases he
  · rw [if_neg hsock] at he ⊢
    rcases hread : ReadIntoBuffer received c.notification_data_ with ⟨complete, data, len⟩
    rw [hread] at he
    cases complete with
    | false => cases he
    | true =>
      dsimp only at he ⊢
      by_cases hstate : c.state_ = State.CONNECTED
      · rw [if_pos hstate]
        exact ⟨hstate, by rw [onNotification_state]; exact hstate⟩
      · rw [if_neg hstate] at he; cases he

theorem step_peer_event (h : List Char) (c : Client) (s : Step) (e : Effect)
    (he : e ∈ (step h c s).2) (hp : e.isPeerEvent = true) :
    c.state_ = State.CONNECTED ∧ (step h c s).1.state_ = State.CONNECTED := by
  have quiet : ∀ {fx : List Effect}, Quiet fx → e ∈ fx → False := fun hq hmem => by
    have := hq e hmem
    rw [hp] at this
    cases this
  cases s with
  | Connect server port name => exact (quiet (Connect_quiet c server port name) he).elim
  | SendToPeer peer_id message => exact (quiet (SendToPeer_quiet c peer_id message) he).elim
  | SendHangUp peer_id => exact (quiet (SendToPeer_quiet c peer_id kByeMessage) he).elim
  | SignOut => exact (quiet (SignOut_quiet c) he).elim
  | OnResolveResult result => exact (quiet (OnResolveResult_quiet c result) he).elim
  | OnConnect => exact (quiet (OnConnect_quiet c) he).elim
  | OnHangingGetConnect => exact (quiet (OnHangingGetConnect_quiet c) he).elim
  | OnRead received => exact (quiet (OnRead_quiet h c received) he).elim
  | OnHangingGetRead received => exact OnHangingGetRead_connected h c received e he
  | OnClose socket err give_up => exact (quiet (OnClose_quiet c socket err give_up) he).elim

/-- C3: along every sequence of engine steps, from whatever client it starts,
a step that invokes `OnPeerConnected`, `OnPeerDisconnected` or
`OnMessageFromPeer` is taken in state `CONNECTED` and leaves the state
`CONNECTED`; so in the other five states no step emits a peer event. -/
theorem peer_events_only_while_connected (peer_id_header : List Char) (c : Client)
    (steps : List Step) (entry : State × List Effect × State)
    (hentry : entry ∈ trace peer_id_header c steps)
    (e : Effect) (he : e ∈ entry.2.1) (hp : e.isPeerEvent = true) :
    entry.1 = State.CONNECTED ∧ entry.2.2 = State.CONNECTED := by
  induction steps generalizing c with
  | nil => cases hentry
  | cons s rest ih =>
    rcases List.mem_cons.mp hentry with hhead | htail
    · subst hhead
      exact step_peer_event peer_id_header c s e he hp
    · exact ih _ htail

set_option maxRecDepth 100000 in
theorem peer_events_only_while_connected_witness :
    (State.CONNECTED, [Effect.OnPeerConnected 4 "carol".toList], State.CONNECTED) ∈
        trace samplePeerIdHeader Client.init sampleSession ∧
      State.CONNECTED = State.CONNECTED ∧ State.CONNECTED = State.CONNECTED :=
  ⟨by decide,
   peer_events_only_while_connected samplePeerIdHeader Client.init sampleSession
     (State.CONNECTED, [Effect.OnPeerConnected 4 "carol".toList], State.CONNECTED)
     (by decide) (Effect.OnPeerConnected 4 "carol".toList) (by decide) (by decide)⟩

end PeerConnectionClient

namespace PeerConnectionClient

/-! ### Peer-list parsing -/

theorem splitOn_of_not_mem (sep : Char) (l : List Char) (h : sep ∉ l) :
    splitOn sep l = [l] := by
  induction l with
  | nil => rfl
  | cons c rest ih =>
    simp only [List.mem_cons, not_or] at h
    have hc : ¬ c = sep := fun heq => h.1 heq.symm
    simp only [splitOn, if_neg hc, ih h.2]

theorem splitOn_append (sep : Char) (l rest : List Char) (h : sep ∉ l) :
    splitOn sep (l ++ sep :: rest) = l :: splitOn sep rest := by
  induction l with
  | nil => simp [splitOn]
  | cons c tail ih =>
    simp only [List.mem_cons, not_or] at h
    have hc : ¬ c = sep := fun heq => h.1 heq.symm
    rw [List.cons_append, splitOn, if_neg hc, ih h.2]

theorem splitOn_ne_nil (sep : Char) (l : List Char) : splitOn sep l ≠ [] := by
  induction l with
  | nil => simp [splitOn]
  | cons c rest ih =>
    unfold splitOn
    split_ifs
    · simp
    · split <;> simp

/-- What `splitOn` returns determines the text: a single piece is the text,
which then has no separator; a first piece followed by others is the text up
to its first separator. -/
theorem splitOn_eq_cons (sep : Char) (l : List Char) (first : List Char)
    (others : List (List Char)) (h : splitOn sep l = first :: others) :
    sep ∉ first ∧
      ((others = [] ∧ l = first) ∨
        ∃ rest, l = first ++ sep :: rest ∧ splitOn sep rest = others) := by
  induction l generalizing first others with
  | nil =>
    simp only [splitOn, List.cons.injEq] at h
    obtain ⟨rfl, rfl⟩ := h
    exact ⟨by simp, Or.inl ⟨rfl, rfl⟩⟩
  | cons c rest ih =>
    unfold splitOn at h
    by_cases hc : c = sep
    · rw [if_pos hc] at h
      simp only [List.cons.injEq] at h
      obtain ⟨rfl, rfl⟩ := h
      exact ⟨by simp, Or.inr ⟨rest, by simp [hc], rfl⟩⟩
    · rw [if_neg hc] at h
      rcases hrest : splitOn sep rest with _ | ⟨field, fields⟩
      · exact absurd hrest (splitOn_ne_nil sep rest)
      · rw [hrest] at h
        simp only [List.cons.injEq] at h
        obtain ⟨rfl, rfl⟩ := h
        obtain ⟨hnot, hshape⟩ := ih field fields hrest
        refine ⟨?_, ?_⟩
        · simp only [List.mem_cons, not_or]
          exact ⟨fun heq => hc heq.symm, hnot⟩
        · rcases hshape with ⟨hnil, hl⟩ | ⟨tail, hl, hsplit⟩
          · exact Or.inl ⟨hnil, by rw [hl]⟩
          · exact Or.inr ⟨tail, by rw [hl]; rfl, hsplit⟩

theorem parseFlag_flagText (connected : Bool) : parseFlag (flagText connected) = some connected := by
  cases connected <;> decide

theorem parseFlag_eq_some (text : List Char) (connected : Bool)
    (h : parseFlag text = some connected) : text = flagText connected := by
  unfold parseFlag at h
  split_ifs at h with h1 h2
  · cases h; exact h1
  · cases h; exact h2

theorem comma_not_mem_flagText (connected : Bool) : ',' ∉ flagText connected := by
  cases connected <;> decide

theorem comma_not_mem_digits (digits : List Char) (h : ∀ d ∈ digits, d.isDigit = true) :
    ',' ∉ digits := by
  intro hmem
  have := h ',' hmem
  revert this
  decide

theorem parseNat_digits (digits : List Char) (hne : digits ≠ [])
    (h : ∀ d ∈ digits, d.isDigit = true) : parseNat digits = some (digitsToNat digits) := by
  unfold parseNat
  rw [if_pos ⟨hne, List.all_eq_true.mpr h⟩]

theorem parseNat_eq_some (text : List Char) (n : Nat) (h : parseNat text = some n) :
    text ≠ [] ∧ (∀ d ∈ text, d.isDigit = true) ∧ n = digitsToNat text := by
  unfold parseNat at h
  split_ifs at h with hshape
  cases h
  exact ⟨hshape.1, List.all_eq_true.mp hshape.2, rfl⟩

theorem ParseEntry_of_wellFormed (line name : List Char) (id : Int) (connected : Bool)
    (h : WellFormedEntry line name id connected) :
    ParseEntry line = some (name, id, connected) := by
  obtain ⟨digits, rfl, hname, hcomma, hne, hdigits, rfl⟩ := h
  unfold ParseEntry
  rw [splitOn_append _ _ _ hcomma, splitOn_append _ _ _ (comma_not_mem_digits digits hdigits),
    splitOn_of_not_mem _ _ (comma_not_mem_flagText connected)]
  simp only [if_neg hname, parseNat_digits digits hne hdigits, parseFlag_flagText]

theorem wellFormed_of_ParseEntry (line name : List Char) (id : Int) (connected : Bool)
    (h : ParseEntry line = some (name, id, connected)) :
    WellFormedEntry line name id connected := by
  unfold ParseEntry at h
  split at h
  · rename_i f1 f2 f3 hsplit
    split_ifs at h with hname
    split at h
    · rename_i n flag hn hflag
      simp only [Option.some.injEq, Prod.mk.injEq] at h
      obtain ⟨rfl, rfl, rfl⟩ := h
      obtain ⟨hc1, h1⟩ := splitOn_eq_cons _ _ _ _ hsplit
      rcases h1 with ⟨hnil, _⟩ | ⟨rest1, hline, hsplit1⟩
      · cases hnil
      obtain ⟨_, h2⟩ := splitOn_eq_cons _ _ _ _ hsplit1
      rcases h2 with ⟨hnil, _⟩ | ⟨rest2, hrest1, hsplit2⟩
      · cases hnil
      obtain ⟨_, h3⟩ := splitOn_eq_cons _ _ _ _ hsplit2
      rcases h3 with ⟨_, hrest2⟩ | ⟨rest3, _, hsplit3⟩
      · obtain ⟨hne, hdigits, hval⟩ := parseNat_eq_some _ _ hn
        refine ⟨f2, ?_, hname, hc1, hne, hdigits, by rw [hval]⟩
        rw [hline, hrest1, hrest2, parseFlag_eq_some _ _ hflag]
      · exact absurd hsplit3 (splitOn_ne_nil _ _)
    · cases h
  · cases h

theorem bodyLines_append (line rest : List Char) (h : '\n' ∉ line) :
    bodyLines (line ++ '\n' :: rest) = line :: bodyLines rest := by
  induction line with
  | nil => simp [bodyLines]
  | cons c tail ih =>
    simp only [List.mem_cons, not_or] at h
    have hc : ¬ c = '\n' := fun heq => h.1 heq.symm
    rw [List.cons_append, bodyLines, if_neg hc, ih h.2]

/-- C4: the body `"alice,2,true\nbob,3,false\n"` has the two lines
`alice,2,true` and `bob,3,false`, and parsing them with `ParseEntry` yields
exactly (alice, 2, true) and (bob, 3, false). In general a line of a body is
parsed on its own: when `ParseEntry` accepts it the entry is yielded, when
`ParseEntry` returns `false` it is skipped, and the entries of the remaining
lines follow either way. `ParseEntry` accepts exactly the lines of the form
`name,id,connected-flag` and yields their three fields; every other line is
malformed and makes it return `false`. -/
theorem ParseEntry_peer_list :
    bodyLines "alice,2,true\nbob,3,false\n".toList =
      ["alice,2,true".toList, "bob,3,false".toList] ∧
    (bodyLines "alice,2,true\nbob,3,false\n".toList).map ParseEntry =
      [some ("alice".toList, 2, true), some ("bob".toList, 3, false)] ∧
    ParsePeerList "alice,2,true\nbob,3,false\n".toList =
      [("alice".toList, 2, true), ("bob".toList, 3, false)] ∧
    (∀ line rest : List Char, '\n' ∉ line →
      ParsePeerList (line ++ '\n' :: rest) =
        match ParseEntry line with
        | some entry => entry :: ParsePeerList rest
        | none => ParsePeerList rest) ∧
    (∀ (line name : List Char) (id : Int) (connected : Bool),
      ParseEntry line = some (name, id, connected) ↔ WellFormedEntry line name id connected) ∧
    (∀ line : List Char,
      (∀ (name : List Char) (id : Int) (connected : Bool),
        ¬ WellFormedEntry line name id connected) →
      ParseEntry line = none) := by
  refine ⟨by decide, by decide, by decide, ?_, ?_, ?_⟩
  · intro line rest hline
    unfold ParsePeerList
    rw [bodyLines_append line rest hline, List.filterMap_cons]
    cases ParseEntry line <;> rfl
  · intro line name id connected
    exact ⟨wellFormed_of_ParseEntry line name id connected,
      ParseEntry_of_wellFormed line name id connected⟩
  · intro line hmalformed
    rcases hparse : ParseEntry line with _ | ⟨name, id, connected⟩
    · rfl
    · exact absurd (wellFormed_of_ParseEntry line name id connected hparse)
        (hmalformed name id connected)

theorem ParseEntry_peer_list_witness :
    ParseEntry "bob,x,false".toList = none ∧
    ParsePeerList ("bob,x,false".toList ++ '\n' :: "alice,2,true\n".toList) =
      [("alice".toList, 2, true)] :=
  ⟨by decide,
   (ParseEntry_peer_list.2.2.2.1 "bob,x,false".toList "alice,2,true\n".toList
      (by decide)).trans (by decide)⟩

end PeerConnectionClient
namespace PeerConnectionClient

/-! ### Incomplete messages -/

theorem ReadIntoBuffer_of_header (received data : List Char) (eoh n : Nat)
    (heoh : findEndOfHeaders (data ++ received) = some eoh)
    (hlength : GetHeaderValue (data ++ received) eoh kContentLengthHeader = some n) :
    ReadIntoBuffer received data =
      (decide (eoh + 4 + n ≤ (data ++ received).length), data ++ received, n) := by
  simp only [ReadIntoBuffer, messageSize, heoh, hlength]

theorem OnRead_of_incomplete (peer_id_header : List Char) (c : Client) (received : List Char)
    (h : (ReadIntoBuffer received c.control_data_).1 = false) :
    OnRead peer_id_header c received =
      (if c.control_socket_ ≠ ConnState.CS_CONNECTED then c
        else { c with control_data_ := (ReadIntoBuffer received c.control_data_).2.1 }, []) := by
  unfold OnRead
  by_cases hsock : c.control_socket_ ≠ ConnState.CS_CONNECTED
  · rw [if_pos hsock, if_pos hsock]
  · rw [if_neg hsock, if_neg hsock]
    rcases hread : ReadIntoBuffer received c.control_data_ with ⟨complete, data, len⟩
    rw [hread] at h
    simp only at h
    subst h
    rfl

theorem OnHangingGetRead_of_incomplete (peer_id_header : List Char) (c : Client)
    (received : List Char) (h : (ReadIntoBuffer received c.notification_data_).1 = false) :
    OnHangingGetRead peer_id_header c received =
      (if c.hanging_get_ ≠ ConnState.CS_CONNECTED then c
        else { c with notification_data_ := (ReadIntoBuffer received c.notification_data_).2.1 },
       []) := by
  unfold OnHangingGetRead
  by_cases hsock : c.hanging_get_ ≠ ConnState.CS_CONNECTED
  · rw [if_pos hsock, if_pos hsock]
  · rw [if_neg hsock, if_neg hsock]
    rcases hread : ReadIntoBuffer received c.notification_data_ with ⟨complete, data, len⟩
    rw [hread] at h
    simp only at h
    subst h
    rfl

/-- The message at the front of the buffer is judged by its header block: with
the block ending at `eoh` and content length `n`, `ReadIntoBuffer` returns
`true` exactly when `eoh + 4 + n` bytes are there, and while fewer are there
both read handlers only keep the bytes. -/
theorem incomplete_of_header (peer_id_header : List Char) (c : Client)
    (received : List Char) (eoh n : Nat) :
    (∀ data : List Char, findEndOfHeaders (data ++ received) = some eoh →
      GetHeaderValue (data ++ received) eoh kContentLengthHeader = some n →
      ((ReadIntoBuffer received data).1 = true ↔ eoh + 4 + n ≤ (data ++ received).length)) ∧
    (findEndOfHeaders (c.control_data_ ++ received) = some eoh →
      GetHeaderValue (c.control_data_ ++ received) eoh kContentLengthHeader = some n →
      (c.control_data_ ++ received).length < eoh + 4 + n →
      (ReadIntoBuffer received c.control_data_).1 = false ∧
      (OnRead peer_id_header c received).2 = [] ∧
      (OnRead peer_id_header c received).1.peers_ = c.peers_ ∧
      (OnRead peer_id_header c received).1.state_ = c.state_ ∧
      (OnRead peer_id_header c received).1.my_id_ = c.my_id_ ∧
      (c.control_socket_ = ConnState.CS_CONNECTED →
        (OnRead peer_id_header c received).1 =
          { c with control_data_ := c.control_data_ ++ received })) ∧
    (findEndOfHeaders (c.notification_data_ ++ received) = some eoh →
      GetHeaderValue (c.notification_data_ ++ received) eoh kContentLengthHeader = some n →
      (c.notification_data_ ++ received).length < eoh + 4 + n →
      (ReadIntoBuffer received c.notification_data_).1 = false ∧
      (OnHangingGetRead peer_id_header c received).2 = [] ∧
      (OnHangingGetRead peer_id_header c received).1.peers_ = c.peers_ ∧
      (OnHangingGetRead peer_id_header c received).1.state_ = c.state_ ∧
      (OnHangingGetRead peer_id_header c received).1.my_id_ = c.my_id_ ∧
      (c.hanging_get_ = ConnState.CS_CONNECTED →
        (OnHangingGetRead peer_id_header c received).1 =
          { c with notification_data_ := c.notification_data_ ++ received })) := by
  refine ⟨?_, ?_, ?_⟩
  · intro data heoh hlength
    rw [ReadIntoBuffer_of_header received data eoh n heoh hlength]
    simp
  · intro heoh hlength hshort
    have hread := ReadIntoBuffer_of_header received _ eoh n heoh hlength
    have hfalse : (ReadIntoBuffer received c.control_data_).1 = false := by
      rw [hread]
      simp only [decide_eq_false_iff_not, not_le]
      exact hshort
    have hkept := OnRead_of_incomplete peer_id_header c received hfalse
    rw [hread] at hkept
    rw [hkept]
    refine ⟨hfalse, rfl, ?_, ?_, ?_, ?_⟩
    · split_ifs <;> rfl
    · split_ifs <;> rfl
    · split_ifs <;> rfl
    · intro hsock
      simp [hsock]
  · intro heoh hlength hshort
    have hread := ReadIntoBuffer_of_header received _ eoh n heoh hlength
    have hfalse : (ReadIntoBuffer received c.notification_data_).1 = false := by
      rw [hread]
      simp only [decide_eq_false_iff_not, not_le]
      exact hshort
    have hkept := OnHangingGetRead_of_incomplete peer_id_header c received hfalse
    rw [hread] at hkept
    rw [hkept]
    refine ⟨hfalse, rfl, ?_, ?_, ?_, ?_⟩
    · split_ifs <;> rfl
    · split_ifs <;> rfl
    · split_ifs <;> rfl
    · intro hsock
      simp [hsock]


theorem Close_noSession (c : Client) : NoSessionBeforeSignIn (Close c).1 :=
  fun _ => ⟨rfl, rfl⟩

theorem abortSession_noSession (c : Client) : NoSessionBeforeSignIn (abortSession c).1 :=
  fun _ => ⟨rfl, rfl⟩

theorem onNotification_noSession (h : List Char) (c : Client) (event : List Char) (n : Nat)
    (hstate : c.state_ = State.CONNECTED) :
    NoSessionBeforeSignIn (onNotification h c event n).1 := by
  intro hbefore
  rw [onNotification_state, hstate] at hbefore
  simp at hbefore

theorem step_noSession (h : List Char) (c : Client) (s : Step)
    (hinv : NoSessionBeforeSignIn c) : NoSessionBeforeSignIn (step h c s).1 := by
  cases s with
  | Connect server port name =>
    simp only [step, Connect]
    split_ifs
    · exact hinv
    · intro _; exact hinv (by simp_all)
  | SendToPeer peer_id message =>
    simp only [step, SendToPeer]
    split_ifs <;> exact hinv
  | SendHangUp peer_id =>
    simp only [step, SendHangUp, SendToPeer]
    split_ifs <;> exact hinv
  | SignOut =>
    simp only [step, SignOut]
    split <;> first | exact hinv | skip
    split_ifs <;> (intro hb; simp_all [issueSignOut, ConnectControlSocket])
  | OnResolveResult result =>
    simp only [step, OnResolveResult]
    split_ifs with hstate
    · exact hinv
    · cases result with
      | none => exact abortSession_noSession c
      | some endpoint =>
        intro _
        exact hinv (by simp_all)
  | OnConnect =>
    simp only [step, OnConnect]
    split_ifs
    · exact hinv
    · split <;> exact hinv
  | OnHangingGetConnect =>
    simp only [step, OnHangingGetConnect]
    split_ifs <;> exact hinv
  | OnRead received =>
    simp only [step, OnRead]
    split_ifs
    · exact hinv
    · split
      · exact hinv
      · split
        · simp only [onSignInResponse]
          split
          · intro hb; simp at hb
          · exact abortSession_noSession _
        · rename_i hstate
          intro hb; simp [hstate] at hb
        · intro hb; simp [issueSignOut, ConnectControlSocket] at hb
        · exact Close_noSession _
        · exact hinv
  | OnHangingGetRead received =>
    simp only [step, OnHangingGetRead]
    by_cases hsock : c.hanging_get_ ≠ ConnState.CS_CONNECTED
    · rw [if_pos hsock]; exact hinv
    · rw [if_neg hsock]
      split
      · exact hinv
      · by_cases hstate : c.state_ = State.CONNECTED
        · rw [if_pos hstate]
          exact onNotification_noSession _ _ _ _ hstate
        · rw [if_neg hstate]; exact hinv
  | OnClose socket err give_up =>
    simp only [step, OnClose]
    cases socket with
    | control =>
      dsimp only
      by_cases hsock : c.control_socket_ = ConnState.CS_CLOSED
      · rw [if_pos hsock]; exact hinv
      · rw [if_neg hsock]
        split
        · exact abortSession_noSession _
        · rename_i hstate
          split_ifs
          · exact abortSession_noSession _
          · intro hb; simp [hstate] at hb
        · intro hb; simp [issueSignOut, ConnectControlSocket] at hb
        · exact Close_noSession _
        · exact hinv
    | hangingGet =>
      dsimp only
      by_cases hsock : c.hanging_get_ = ConnState.CS_CLOSED
      · rw [if_pos hsock]; exact hinv
      · rw [if_neg hsock]
        by_cases hstate : c.state_ = State.CONNECTED
        · rw [if_pos hstate]
          split_ifs
          · exact abortSession_noSession _
          · intro hb; simp [hstate] at hb
        · rw [if_neg hstate]; exact hinv

theorem run_noSession (h : List Char) (c : Client) (steps : List Step)
    (hinv : NoSessionBeforeSignIn c) : NoSessionBeforeSignIn (run h c steps) := by
  induction steps generalizing c with
  | nil => exact hinv
  | cons s rest ih => exact ih _ (step_noSession h c s hinv)


theorem findFrom_offset (pattern data : List Char) (offset : Nat) :
    findFrom pattern data offset = (findFrom pattern data 0).map (· + offset) := by
  induction data generalizing offset with
  | nil =>
    unfold findFrom
    split_ifs <;> simp
  | cons c rest ih =>
    unfold findFrom
    split_ifs
    · simp
    · rw [ih (offset + 1), ih (0 + 1)]
      cases findFrom pattern rest 0 <;> simp [Nat.add_comm, Nat.add_left_comm]

theorem find_cons (pattern : List Char) (c : Char) (rest : List Char) :
    find pattern (c :: rest) =
      if pattern.isPrefixOf (c :: rest) then some 0 else (find pattern rest).map (· + 1) := by
  unfold find
  rw [findFrom, findFrom_offset pattern rest (0 + 1)]

theorem find_skip (first : Char) (pattern skipped rest : List Char)
    (h : ∀ c ∈ skipped, c ≠ first) :
    find (first :: pattern) (skipped ++ rest) =
      (find (first :: pattern) rest).map (· + skipped.length) := by
  induction skipped with
  | nil => cases hfound : find (first :: pattern) rest <;> simp [hfound]
  | cons c tail ih =>
    have hc : c ≠ first := h c (List.mem_cons_self _ _)
    have hne : (first == c) = false := by simpa using fun heq => hc heq.symm
    rw [List.cons_append, find_cons, List.isPrefixOf, hne, Bool.false_and,
      ih (fun d hd => h d (List.mem_cons_of_mem _ hd))]
    cases find (first :: pattern) rest <;> simp [Nat.add_assoc]

theorem joinHeaderLines_append (first second : List (List Char)) :
    joinHeaderLines (first ++ second) = joinHeaderLines first ++ joinHeaderLines second := by
  induction first with
  | nil => rfl
  | cons line rest ih => simp [joinHeaderLines, ih]

theorem find_endOfHeaders_join (lines : List (List Char)) (body : List Char)
    (hlines : ∀ line ∈ lines, line ≠ [] ∧ ∀ c ∈ line, c ≠ '\r') :
    find kEndOfHeaders (joinHeaderLines lines ++ (kEndOfHeaders ++ body)) =
      some (joinHeaderLines lines).length := by
  have hpattern : kEndOfHeaders = ['\r', '\n', '\r', '\n'] := by decide
  rw [hpattern]
  induction lines with
  | nil => simp [joinHeaderLines, find_cons, List.isPrefixOf]
  | cons line rest ih =>
    obtain ⟨hne, hcr⟩ := hlines line (List.mem_cons_self _ _)
    have hrest := ih (fun l hl => hlines l (List.mem_cons_of_mem _ hl))
    obtain ⟨c, tail, rfl⟩ := List.exists_cons_of_ne_nil hne
    have hc : c ≠ '\r' := hcr c (List.mem_cons_self _ _)
    have hne' : ('\r' == c) = false := by simpa using fun heq => hc heq.symm
    have hskip := find_skip '\r' ['\n', '\r', '\n'] ('\n' :: c :: tail)
      (joinHeaderLines rest ++ (['\r', '\n', '\r', '\n'] ++ body))
      (by
        intro d hd
        rcases List.mem_cons.mp hd with rfl | hd
        · decide
        · exact hcr d hd)
    simp only [joinHeaderLines, List.cons_append, List.nil_append, List.append_assoc]
      at hskip hrest ⊢
    rw [find_cons]
    simp only [List.isPrefixOf, hne', Bool.and_false, Bool.false_and, Bool.false_eq_true,
      if_false]
    rw [hskip, hrest]
    simp only [Option.map_some', List.length_cons, List.length_append, Option.some.injEq]
    omega

theorem isPrefixOf_append_self (key rest : List Char) : key.isPrefixOf (key ++ rest) = true := by
  induction key with
  | nil => simp [List.isPrefixOf]
  | cons c tail ih => simp [List.isPrefixOf, ih]

theorem isPrefixOf_append_cr (key line rest : List Char) (hkey : ∀ c ∈ key, c ≠ '\r')
    (hline : key.isPrefixOf line = false) : key.isPrefixOf (line ++ '\r' :: rest) = false := by
  induction key generalizing line with
  | nil => simp [List.isPrefixOf] at hline
  | cons k ks ih =>
    have hk : k ≠ '\r' := hkey k (List.mem_cons_self _ _)
    cases line with
    | nil => simp [List.isPrefixOf, hk]
    | cons x xs =>
      simp only [List.isPrefixOf, Bool.and_eq_false_iff] at hline
      simp only [List.cons_append, List.isPrefixOf, Bool.and_eq_false_iff]
      rcases hline with hx | hxs
      · exact Or.inl hx
      · exact Or.inr (ih xs (fun c hc => hkey c (List.mem_cons_of_mem _ hc)) hxs)

theorem find_header_join (key value : List Char) (before after : List (List Char))
    (rest : List Char) (hkey : ∀ c ∈ key, c ≠ '\r')
    (hbefore : ∀ line ∈ before, (∀ c ∈ line, c ≠ '\r') ∧ key.isPrefixOf line = false) :
    find ('\r' :: '\n' :: key)
        (joinHeaderLines (before ++ (key ++ value) :: after) ++ rest) =
      some (joinHeaderLines before).length := by
  induction before with
  | nil =>
    simp only [List.nil_append, joinHeaderLines, List.cons_append, List.append_assoc]
    rw [find_cons]
    simp [List.isPrefixOf, isPrefixOf_append_self]
  | cons line others ih =>
    obtain ⟨hcr, hnot⟩ := hbefore line (List.mem_cons_self _ _)
    have hrest := ih (fun l hl => hbefore l (List.mem_cons_of_mem _ hl))
    have hstart : ∃ t, joinHeaderLines (others ++ (key ++ value) :: after) ++ rest = '\r' :: t := by
      cases others <;> exact ⟨_, rfl⟩
    obtain ⟨t, ht⟩ := hstart
    have hskip := find_skip '\r' ('\n' :: key) ('\n' :: line)
      (joinHeaderLines (others ++ (key ++ value) :: after) ++ rest)
      (by
        intro d hd
        rcases List.mem_cons.mp hd with rfl | hd
        · decide
        · exact hcr d hd)
    rw [List.cons_append, joinHeaderLines]
    simp only [List.cons_append, List.append_assoc] at hskip ⊢
    rw [find_cons]
    have hmiss : key.isPrefixOf
        (line ++ (joinHeaderLines (others ++ (key ++ value) :: after) ++ rest)) = false := by
      rw [ht]
      exact isPrefixOf_append_cr key line t hkey hnot
    simp only [List.isPrefixOf, hmiss, Bool.and_false, Bool.false_eq_true, if_false]
    rw [hskip, hrest]
    simp only [joinHeaderLines, Option.map_some', List.length_cons, List.length_append,
      Option.some.injEq]
    omega

theorem takeWhile_not_cr (value rest : List Char) (hvalue : ∀ c ∈ value, c ≠ '\r')
    (hrest : rest = [] ∨ ∃ t, rest = '\r' :: t) :
    (value ++ rest).takeWhile (fun c => decide (c ≠ '\r')) = value := by
  induction value with
  | nil =>
    rcases hrest with rfl | ⟨t, rfl⟩
    · rfl
    · simp [List.takeWhile]
  | cons c tail ih =>
    have hc : c ≠ '\r' := hvalue c (List.mem_cons_self _ _)
    rw [List.cons_append, List.takeWhile_cons, if_pos (by simpa using hc),
      ih (fun d hd => hvalue d (List.mem_cons_of_mem _ hd))]

theorem joinHeaderLines_start (lines : List (List Char)) :
    joinHeaderLines lines = [] ∨ ∃ t, joinHeaderLines lines = '\r' :: t := by
  cases lines with
  | nil => exact Or.inl rfl
  | cons line rest => exact Or.inr ⟨_, rfl⟩

/-- In an HTTP-shaped message whose status line and header lines hold no CR and
whose header lines are not empty, the header block ends where the blank line
starts, and the first header line that starts with `key` gives `key` its
value. -/
theorem httpShaped_parse (status_line key value : List Char) (before after : List (List Char))
    (body : List Char)
    (hstatus : ∀ c ∈ status_line, c ≠ '\r')
    (hkey : key ≠ [] ∧ ∀ c ∈ key, c ≠ '\r')
    (hvalue : ∀ c ∈ value, c ≠ '\r')
    (hbefore : ∀ line ∈ before,
      line ≠ [] ∧ (∀ c ∈ line, c ≠ '\r') ∧ key.isPrefixOf line = false)
    (hafter : ∀ line ∈ after, line ≠ [] ∧ ∀ c ∈ line, c ≠ '\r') :
    findEndOfHeaders (httpShaped status_line (before ++ (key ++ value) :: after) body) =
      some (status_line ++ joinHeaderLines (before ++ (key ++ value) :: after)).length ∧
    headerText (httpShaped status_line (before ++ (key ++ value) :: after) body)
      (status_line ++ joinHeaderLines (before ++ (key ++ value) :: after)).length
      ('\r' :: '\n' :: key) = some value := by
  have hlines : ∀ line ∈ before ++ (key ++ value) :: after,
      line ≠ [] ∧ ∀ c ∈ line, c ≠ '\r' := by
    intro line hline
    rcases List.mem_append.mp hline with h | h
    · exact ⟨(hbefore line h).1, (hbefore line h).2.1⟩
    · rcases List.mem_cons.mp h with rfl | h
      · refine ⟨by simp [hkey.1], ?_⟩
        intro c hc
        rcases List.mem_append.mp hc with hc | hc
        · exact hkey.2 c hc
        · exact hvalue c hc
      · exact hafter line h
  constructor
  · unfold findEndOfHeaders httpShaped
    have hpattern : kEndOfHeaders = '\r' :: ['\n', '\r', '\n'] := by decide
    rw [hpattern, find_skip '\r' _ status_line _ hstatus, ← hpattern,
      find_endOfHeaders_join _ body hlines]
    simp [Nat.add_comm]
  · unfold headerText httpShaped
    have hfound : find ('\r' :: '\n' :: key)
        (status_line ++ (joinHeaderLines (before ++ (key ++ value) :: after) ++
          (kEndOfHeaders ++ body))) =
        some ((joinHeaderLines before).length + status_line.length) := by
      rw [find_skip '\r' _ status_line _ hstatus,
        find_header_join key value before after _ hkey.2
          (fun line hline => ⟨(hbefore line hline).2.1, (hbefore line hline).2.2⟩)]
      rfl
    rw [hfound]
    dsimp only
    have hsplit : status_line ++ (joinHeaderLines (before ++ (key ++ value) :: after) ++
          (kEndOfHeaders ++ body)) =
        (status_line ++ (joinHeaderLines before ++ '\r' :: '\n' :: key)) ++
          ((value ++ joinHeaderLines after) ++ (kEndOfHeaders ++ body)) := by
      simp [joinHeaderLines_append, joinHeaderLines]
    have hlen : (joinHeaderLines before).length + status_line.length +
          ('\r' :: '\n' :: key).length =
        (status_line ++ (joinHeaderLines before ++ '\r' :: '\n' :: key)).length := by
      simp only [List.length_append, List.length_cons]
      omega
    have heoh : (status_line ++ joinHeaderLines (before ++ (key ++ value) :: after)).length =
        (status_line ++ (joinHeaderLines before ++ '\r' :: '\n' :: key)).length +
          (value ++ joinHeaderLines after).length := by
      simp only [joinHeaderLines_append, joinHeaderLines, List.length_append, List.length_cons]
      omega
    rw [if_pos (by rw [heoh]; simp only [List.length_append, List.length_cons]; omega),
      hsplit, hlen, List.drop_left, heoh, Nat.add_sub_cancel_left, List.take_left,
      takeWhile_not_cr value _ hvalue (joinHeaderLines_start after)]

/-- C5: let the buffer, after the bytes just received are appended, be an
HTTP-shaped message: a status line, header lines of which the first that starts
with `Content-Length: ` announces `n` body bytes, the blank line, and a body.
`ReadIntoBuffer` returns `true` exactly when the body has all `n` bytes. While
the body has fewer it returns `false` and the engine, on the control socket
(`OnRead`) as on the notification socket (`OnHangingGetRead`), only keeps the
bytes: no effect is caused, so no observer callback, and the peer registry, the
session state and the own identifier stay as they were. -/
theorem incomplete_message_not_processed (peer_id_header : List Char) (c : Client)
    (received status_line digits body : List Char) (before after : List (List Char))
    (hstatus : ∀ ch ∈ status_line, ch ≠ '\r')
    (hdigits : digits ≠ [] ∧ ∀ d ∈ digits, d.isDigit = true)
    (hbefore : ∀ line ∈ before,
      line ≠ [] ∧ (∀ ch ∈ line, ch ≠ '\r') ∧ kContentLength.isPrefixOf line = false)
    (hafter : ∀ line ∈ after, line ≠ [] ∧ ∀ ch ∈ line, ch ≠ '\r') :
    (∀ data : List Char,
      data ++ received =
        httpShaped status_line (before ++ (kContentLength ++ digits) :: after) body →
      ((ReadIntoBuffer received data).1 = true ↔ digitsToNat digits ≤ body.length)) ∧
    (c.control_data_ ++ received =
        httpShaped status_line (before ++ (kContentLength ++ digits) :: after) body →
      body.length < digitsToNat digits →
      (ReadIntoBuffer received c.control_data_).1 = false ∧
      (OnRead peer_id_header c received).2 = [] ∧
      (OnRead peer_id_header c received).1.peers_ = c.peers_ ∧
      (OnRead peer_id_header c received).1.state_ = c.state_ ∧
      (OnRead peer_id_header c received).1.my_id_ = c.my_id_ ∧
      (c.control_socket_ = ConnState.CS_CONNECTED →
        (OnRead peer_id_header c received).1 =
          { c with control_data_ := c.control_data_ ++ received })) ∧
    (c.notification_data_ ++ received =
        httpShaped status_line (before ++ (kContentLength ++ digits) :: after) body →
      body.length < digitsToNat digits →
      (ReadIntoBuffer received c.notification_data_).1 = false ∧
      (OnHangingGetRead peer_id_header c received).2 = [] ∧
      (OnHangingGetRead peer_id_header c received).1.peers_ = c.peers_ ∧
      (OnHangingGetRead peer_id_header c received).1.state_ = c.state_ ∧
      (OnHangingGetRead peer_id_header c received).1.my_id_ = c.my_id_ ∧
      (c.hanging_get_ = ConnState.CS_CONNECTED →
        (OnHangingGetRead peer_id_header c received).1 =
          { c with notification_data_ := c.notification_data_ ++ received })) := by
  have hcr : ∀ d ∈ digits, d ≠ '\r' := by
    intro d hd heq
    have := hdigits.2 d hd
    rw [heq] at this
    revert this
    decide
  obtain ⟨heoh, htext⟩ := httpShaped_parse status_line kContentLength digits before after body
    hstatus ⟨by decide, by decide⟩ hcr hbefore hafter
  have hvalue : GetHeaderValue
      (httpShaped status_line (before ++ (kContentLength ++ digits) :: after) body)
      (status_line ++ joinHeaderLines (before ++ (kContentLength ++ digits) :: after)).length
      kContentLengthHeader = some (digitsToNat digits) := by
    unfold GetHeaderValue kContentLengthHeader
    rw [htext]
    exact parseNat_digits digits hdigits.1 hdigits.2
  have hlength : (httpShaped status_line (before ++ (kContentLength ++ digits) :: after)
      body).length =
      (status_line ++ joinHeaderLines (before ++ (kContentLength ++ digits) :: after)).length
        + 4 + body.length := by
    unfold httpShaped
    have hfour : kEndOfHeaders.length = 4 := by decide
    simp only [List.length_append, hfour]
    omega
  have hgeneral := incomplete_of_header peer_id_header c received
    (status_line ++ joinHeaderLines (before ++ (kContentLength ++ digits) :: after)).length
    (digitsToNat digits)
  refine ⟨?_, ?_, ?_⟩
  · intro data hdata
    rw [hgeneral.1 data (by rw [hdata]; exact heoh) (by rw [hdata]; exact hvalue), hdata,
      hlength]
    omega
  · intro hdata hshort
    exact hgeneral.2.1 (by rw [hdata]; exact heoh) (by rw [hdata]; exact hvalue)
      (by rw [hdata, hlength]; omega)
  · intro hdata hshort
    exact hgeneral.2.2 (by rw [hdata]; exact heoh) (by rw [hdata]; exact hvalue)
      (by rw [hdata, hlength]; omega)

set_option maxRecDepth 100000 in
theorem incomplete_message_not_processed_witness :
    (OnHangingGetRead samplePeerIdHeader sampleSignedIn samplePartial).2 = [] ∧
    (OnHangingGetRead samplePeerIdHeader sampleSignedIn samplePartial).1.peers_ =
      sampleSignedIn.peers_ ∧
    (OnHangingGetRead samplePeerIdHeader
      (OnHangingGetRead samplePeerIdHeader sampleSignedIn samplePartial).1 "lo".toList).2 =
      [Effect.OnMessageFromPeer 2 "hello".toList] :=
  have h := (incomplete_message_not_processed samplePeerIdHeader sampleSignedIn samplePartial
    "HTTP/1.0 200 OK".toList "5".toList "hel".toList ["Pragma: 2".toList] []
    (by decide) (by decide) (by decide) (by decide)).2.2 (by decide) (by decide)
  ⟨h.2.1, h.2.2.1, by decide⟩

/-- C6: a client that the engine brought to `SIGNING_IN` and whose control
socket is connected consumes a complete sign-in response with status 200, peer
identifier 7 and an empty peer-list body: the session is `CONNECTED`,
`id()` is 7 and `peers()` is empty; the notification socket is opened and the
observer is told that the client signed in. -/
theorem sign_in_round_trip (peer_id_header : List Char) (steps : List Step)
    (received response : List Char) (eoh content_length : Nat)
    (hstate : (run peer_id_header Client.init steps).state_ = State.SIGNING_IN)
    (hsock : (run peer_id_header Client.init steps).control_socket_ = ConnState.CS_CONNECTED)
    (hcomplete : ReadIntoBuffer received (run peer_id_header Client.init steps).control_data_ =
      (true, response, content_length))
    (hstatus : GetResponseStatus response = 200)
    (heoh : findEndOfHeaders response = some eoh)
    (hid : GetHeaderValue response eoh peer_id_header = some 7)
    (hbody : messageBody response eoh content_length = []) :
    (OnRead peer_id_header (run peer_id_header Client.init steps) received).1.state_ =
      State.CONNECTED ∧
    id (OnRead peer_id_header (run peer_id_header Client.init steps) received).1 = some 7 ∧
    peers (OnRead peer_id_header (run peer_id_header Client.init steps) received).1 = [] ∧
    is_connected (OnRead peer_id_header (run peer_id_header Client.init steps) received).1 =
      true ∧
    (OnRead peer_id_header (run peer_id_header Client.init steps) received).2 =
      [Effect.socketClose SocketRole.control, Effect.socketConnect SocketRole.hangingGet,
       Effect.OnSignedIn] := by
  have hinv := run_noSession peer_id_header Client.init steps (fun _ => ⟨rfl, rfl⟩)
  generalize run peer_id_header Client.init steps = c at *
  have hpeers : c.peers_ = [] := (hinv (Or.inr (Or.inr hstate))).1
  have hparse : ParseServerResponse peer_id_header response content_length =
      some (some 7, eoh) := by
    simp [ParseServerResponse, hstatus, heoh, hid]
  have hread : OnRead peer_id_header c received =
      ({ c with control_data_ := [], control_socket_ := ConnState.CS_CLOSED,
                my_id_ := some 7, peers_ := [], state_ := State.CONNECTED,
                hanging_get_ := ConnState.CS_CONNECTING },
       [Effect.socketClose SocketRole.control, Effect.socketConnect SocketRole.hangingGet,
        Effect.OnSignedIn]) := by
    unfold OnRead
    rw [if_neg (by simp [hsock]), hcomplete]
    simp only [hstate, onSignInResponse, hparse, hbody, hpeers]
    rfl
  rw [hread]
  exact ⟨rfl, rfl, rfl, rfl, rfl⟩

set_option maxRecDepth 100000 in
theorem sign_in_round_trip_witness :
    (OnRead samplePeerIdHeader (run samplePeerIdHeader Client.init (sampleSession.take 3))
      sampleSignInResponse).1.state_ = State.CONNECTED ∧
    id (OnRead samplePeerIdHeader (run samplePeerIdHeader Client.init (sampleSession.take 3))
      sampleSignInResponse).1 = some 7 ∧
    peers (OnRead samplePeerIdHeader (run samplePeerIdHeader Client.init (sampleSession.take 3))
      sampleSignInResponse).1 = [] :=
  have h := sign_in_round_trip samplePeerIdHeader (sampleSession.take 3) sampleSignInResponse
    sampleSignInResponse 45 0 (by decide) (by decide) (by decide) (by decide) (by decide)
    (by decide) (by decide)
  ⟨h.1, h.2.1, h.2.2.1⟩


/-! ### Sign-out -/

theorem OnRead_of_complete (peer_id_header : List Char) (c : Client) (received : List Char)
    (hsock : c.control_socket_ = ConnState.CS_CONNECTED)
    (hcomplete : (ReadIntoBuffer received c.control_data_).1 = true) :
    (c.state_ = State.SIGNING_OUT →
      OnRead peer_id_header c received =
        ((Close { c with control_data_ := [], control_socket_ := ConnState.CS_CLOSED }).1,
         [Effect.socketClose SocketRole.control] ++
           (Close { c with control_data_ := [], control_socket_ := ConnState.CS_CLOSED }).2 ++
           [Effect.OnDisconnected])) ∧
    (c.state_ = State.SIGNING_OUT_WAITING →
      OnRead peer_id_header c received =
        ((issueSignOut { c with control_data_ := [], control_socket_ := ConnState.CS_CLOSED }).1,
         [Effect.socketClose SocketRole.control] ++
           (issueSignOut
             { c with control_data_ := [], control_socket_ := ConnState.CS_CLOSED }).2)) := by
  rcases hread : ReadIntoBuffer received c.control_data_ with ⟨complete, data, len⟩
  rw [hread] at hcomplete
  simp only at hcomplete
  subst hcomplete
  constructor
  · intro hstate
    unfold OnRead
    rw [if_neg (by simp [hsock]), hread]
    simp only [hstate]
  · intro hstate
    unfold OnRead
    rw [if_neg (by simp [hsock]), hread]
    simp only [hstate]

theorem OnConnect_of_open (c : Client) (hopen : c.control_socket_ ≠ ConnState.CS_CLOSED) :
    (OnConnect c).1.control_socket_ = ConnState.CS_CONNECTED ∧
    (OnConnect c).1.state_ = c.state_ ∧
    (OnConnect c).1.control_data_ = c.control_data_ := by
  unfold OnConnect
  by_cases hsock : c.control_socket_ ≠ ConnState.CS_CONNECTING
  · rw [if_pos hsock]
    refine ⟨?_, rfl, rfl⟩
    cases hc : c.control_socket_ <;> simp_all
  · rw [if_neg hsock]
    split <;> exact ⟨rfl, rfl, rfl⟩

theorem Close_cleared (c : Client) : Cleared (Close c).1 := ⟨rfl, rfl, rfl⟩

theorem applyEntry_silent (entries : List (List Char × Int × Bool)) (acc : Peers × List Effect)
    (h : Effect.OnDisconnected ∉ acc.2) :
    Effect.OnDisconnected ∉ (entries.foldl applyEntry acc).2 := by
  induction entries generalizing acc with
  | nil => exact h
  | cons entry rest ih =>
    apply ih
    unfold applyEntry
    simp only [List.mem_append, List.mem_singleton, not_or]
    refine ⟨h, ?_⟩
    split_ifs <;> simp

theorem onNotification_silent (peer_id_header : List Char) (c : Client) (event : List Char)
    (n : Nat) : Effect.OnDisconnected ∉ (onNotification peer_id_header c event n).2 := by
  unfold onNotification
  split
  · split_ifs
    · exact applyEntry_silent _ _ (by simp)
    · unfold OnMessageFromPeer
      split_ifs <;> simp
  · simp

theorem disconnected_of_OnDisconnected (peer_id_header : List Char) (c : Client) (s : Step)
    (h : Effect.OnDisconnected ∈ (step peer_id_header c s).2) :
    Cleared (step peer_id_header c s).1 := by
  cases s with
  | Connect server port name =>
    simp only [step, Connect] at h ⊢
    split_ifs at h ⊢ <;> simp [ConnectControlSocket, issueSignOut, DoConnect] at h
  | SendToPeer peer_id message =>
    simp only [step, SendToPeer] at h ⊢
    split_ifs at h ⊢ <;> simp [ConnectControlSocket, issueSignOut, DoConnect] at h
  | SendHangUp peer_id =>
    simp only [step, SendHangUp, SendToPeer] at h ⊢
    split_ifs at h ⊢ <;> simp [ConnectControlSocket, issueSignOut, DoConnect] at h
  | SignOut =>
    simp only [step, SignOut] at h ⊢
    cases hstate : c.state_ <;> rw [hstate] at h <;> simp only at h
    case CONNECTED =>
      by_cases hbusy : IsSendingMessage c = true
      · rw [if_pos hbusy] at h; simp at h
      · rw [if_neg hbusy] at h; simp [ConnectControlSocket, issueSignOut] at h
    all_goals simp at h
  | OnResolveResult result =>
    simp only [step, OnResolveResult] at h ⊢
    by_cases hstate : c.state_ ≠ State.RESOLVING
    · rw [if_pos hstate] at h; simp [ConnectControlSocket, issueSignOut, DoConnect] at h
    · rw [if_neg hstate] at h ⊢
      cases result with
      | none => exact Close_cleared c
      | some endpoint => simp [ConnectControlSocket, issueSignOut, DoConnect] at h
  | OnConnect =>
    simp only [step, OnConnect] at h ⊢
    by_cases hsock : c.control_socket_ ≠ ConnState.CS_CONNECTING
    · rw [if_pos hsock] at h; simp [ConnectControlSocket, issueSignOut, DoConnect] at h
    · rw [if_neg hsock] at h
      split at h <;> simp [ConnectControlSocket, issueSignOut, DoConnect] at h
  | OnHangingGetConnect =>
    simp only [step, OnHangingGetConnect] at h ⊢
    split_ifs at h <;> simp [ConnectControlSocket, issueSignOut, DoConnect] at h
  | OnRead received =>
    simp only [step, OnRead] at h ⊢
    by_cases hsock : c.control_socket_ ≠ ConnState.CS_CONNECTED
    · rw [if_pos hsock] at h; simp [ConnectControlSocket, issueSignOut, DoConnect] at h
    · rw [if_neg hsock] at h ⊢
      rcases hread : ReadIntoBuffer received c.control_data_ with ⟨complete, data, len⟩
      rw [hread] at h
      cases complete with
      | false => simp [ConnectControlSocket, issueSignOut, DoConnect] at h
      | true =>
        cases hstate : c.state_ <;> simp only [hstate] at h ⊢
        · simp at h
        · simp at h
        · simp only [onSignInResponse] at h ⊢
          cases hparse : ParseServerResponse peer_id_header data len with
          | none => exact Close_cleared _
          | some parsed =>
            rcases parsed with ⟨_ | peer_id, eoh⟩
            · exact Close_cleared _
            · rw [hparse] at h; simp at h
        · simp at h
        · simp [ConnectControlSocket, issueSignOut] at h
        · exact Close_cleared _
  | OnHangingGetRead received =>
    simp only [step, OnHangingGetRead] at h ⊢
    by_cases hsock : c.hanging_get_ ≠ ConnState.CS_CONNECTED
    · rw [if_pos hsock] at h; simp [ConnectControlSocket, issueSignOut, DoConnect] at h
    · rw [if_neg hsock] at h ⊢
      rcases hread : ReadIntoBuffer received c.notification_data_ with ⟨complete, data, len⟩
      rw [hread] at h
      cases complete with
      | false => simp [ConnectControlSocket, issueSignOut, DoConnect] at h
      | true =>
        dsimp only at h ⊢
        by_cases hstate : c.state_ = State.CONNECTED
        · rw [if_pos hstate] at h ⊢
          have hquiet := onNotification_silent peer_id_header
            { c with notification_data_ :=
                data.drop (((messageSize data).map Prod.fst).getD data.length) } data len
          exact absurd h hquiet
        · rw [if_neg hstate] at h; simp [ConnectControlSocket, issueSignOut, DoConnect] at h
  | OnClose socket err give_up =>
    simp only [step, OnClose] at h ⊢
    cases socket with
    | control =>
      dsimp only at h ⊢
      by_cases hsock : c.control_socket_ = ConnState.CS_CLOSED
      · rw [if_pos hsock] at h; simp [ConnectControlSocket, issueSignOut, DoConnect] at h
      · rw [if_neg hsock] at h ⊢
        cases hstate : c.state_ <;> simp only [hstate] at h ⊢
        · simp at h
        · simp at h
        · exact Close_cleared _
        · by_cases hgive : give_up = true
          · rw [if_pos hgive]; exact Close_cleared _
          · rw [if_neg hgive] at h; simp at h
        · simp [ConnectControlSocket, issueSignOut] at h
        · exact Close_cleared _
    | hangingGet =>
      dsimp only at h ⊢
      by_cases hsock : c.hanging_get_ = ConnState.CS_CLOSED
      · rw [if_pos hsock] at h; simp [ConnectControlSocket, issueSignOut, DoConnect] at h
      · rw [if_neg hsock] at h ⊢
        by_cases hstate : c.state_ = State.CONNECTED
        · rw [if_pos hstate] at h ⊢
          by_cases hgive : give_up = true
          · rw [if_pos hgive]; exact Close_cleared _
          · rw [if_neg hgive] at h; simp [ConnectControlSocket, issueSignOut, DoConnect] at h
        · rw [if_neg hstate] at h; simp [ConnectControlSocket, issueSignOut, DoConnect] at h

/-- C7: a sign-out that ran to completion leaves `peers()` empty, `id()` unset
and `is_connected()` false, from either starting point in `CONNECTED`. With no
request pending, `SignOut` issues the sign-out request at once (state
`SIGNING_OUT`) and the session ends when its response is consumed. With a
request pending, `SignOut` waits in `SIGNING_OUT_WAITING`; once the pending
response is consumed the sign-out request is issued (state `SIGNING_OUT`), and
the session ends when that response is consumed. In general every step that
reports `OnDisconnected` leaves the session data cleared. -/
theorem SignOut_completes (peer_id_header : List Char) (c : Client)
    (hstate : c.state_ = State.CONNECTED) :
    (IsSendingMessage c = false →
      ∀ response : List Char, (ReadIntoBuffer response c.control_data_).1 = true →
        (SignOut c).1 = true ∧
        (SignOut c).2.1.state_ = State.SIGNING_OUT ∧
        (SignOut c).2.2 = [Effect.socketConnect SocketRole.control] ∧
        (OnConnect (SignOut c).2.1).2 =
          [Effect.socketSend SocketRole.control (Request.signOut c.my_id_)] ∧
        Effect.OnDisconnected ∈
          (OnRead peer_id_header (OnConnect (SignOut c).2.1).1 response).2 ∧
        peers (run peer_id_header c [Step.SignOut, Step.OnConnect, Step.OnRead response]) = [] ∧
        id (run peer_id_header c [Step.SignOut, Step.OnConnect, Step.OnRead response]) = none ∧
        is_connected (run peer_id_header c [Step.SignOut, Step.OnConnect, Step.OnRead response])
          = false) ∧
    (IsSendingMessage c = true →
      ∀ pending response : List Char,
        (ReadIntoBuffer pending c.control_data_).1 = true →
        (ReadIntoBuffer response []).1 = true →
        (SignOut c).1 = true ∧
        (SignOut c).2.1.state_ = State.SIGNING_OUT_WAITING ∧
        (SignOut c).2.2 = [] ∧
        (run peer_id_header c [Step.SignOut, Step.OnConnect, Step.OnRead pending]).state_ =
          State.SIGNING_OUT ∧
        (OnConnect
            (run peer_id_header c [Step.SignOut, Step.OnConnect, Step.OnRead pending])).2 =
          [Effect.socketSend SocketRole.control (Request.signOut c.my_id_)] ∧
        peers (run peer_id_header c [Step.SignOut, Step.OnConnect, Step.OnRead pending,
          Step.OnConnect, Step.OnRead response]) = [] ∧
        id (run peer_id_header c [Step.SignOut, Step.OnConnect, Step.OnRead pending,
          Step.OnConnect, Step.OnRead response]) = none ∧
        is_connected (run peer_id_header c [Step.SignOut, Step.OnConnect, Step.OnRead pending,
          Step.OnConnect, Step.OnRead response]) = false) ∧
    (∀ (d : Client) (s : Step), Effect.OnDisconnected ∈ (step peer_id_header d s).2 →
      peers (step peer_id_header d s).1 = [] ∧ id (step peer_id_header d s).1 = none ∧
      is_connected (step peer_id_header d s).1 = false) := by
  refine ⟨?_, ?_, ?_⟩
  · intro hfree response hcomplete
    have hsign : SignOut c = (true, (issueSignOut c).1, (issueSignOut c).2) := by
      simp only [SignOut, hstate, hfree]
      rfl
    have hread := (OnRead_of_complete peer_id_header (OnConnect (issueSignOut c).1).1 response
      rfl hcomplete).1 rfl
    simp only [run, step]
    rw [hsign]
    refine ⟨rfl, rfl, rfl, rfl, ?_, ?_, ?_, ?_⟩ <;> dsimp only <;> rw [hread]
    · simp
    · rfl
    · rfl
    · rfl
  · intro hbusy pending response hpending hcomplete
    have hsign : SignOut c = (true, { c with state_ := State.SIGNING_OUT_WAITING }, []) := by
      simp only [SignOut, hstate, hbusy]
      rfl
    have hopen : ({ c with state_ := State.SIGNING_OUT_WAITING } : Client).control_socket_ ≠
        ConnState.CS_CLOSED := by
      simpa [IsSendingMessage] using hbusy
    obtain ⟨hsock, hwaiting, hdata⟩ := OnConnect_of_open _ hopen
    have hmy : (OnConnect { c with state_ := State.SIGNING_OUT_WAITING }).1.my_id_ = c.my_id_ := by
      unfold OnConnect
      split_ifs
      · rfl
      · split <;> rfl
    have hread1 := (OnRead_of_complete peer_id_header
      (OnConnect { c with state_ := State.SIGNING_OUT_WAITING }).1 pending hsock
      (by rw [hdata]; exact hpending)).2 hwaiting
    have hread2 := (OnRead_of_complete peer_id_header
      (OnConnect (issueSignOut
        { (OnConnect { c with state_ := State.SIGNING_OUT_WAITING }).1 with
            control_data_ := [], control_socket_ := ConnState.CS_CLOSED }).1).1
      response rfl hcomplete).1 rfl
    simp only [run, step]
    rw [hsign]
    refine ⟨rfl, rfl, rfl, ?_, ?_, ?_, ?_, ?_⟩ <;> dsimp only <;> rw [hread1]
    · rfl
    · show [Effect.socketSend SocketRole.control (Request.signOut
        (OnConnect { c with state_ := State.SIGNING_OUT_WAITING }).1.my_id_)] = _
      rw [hmy]
    · rw [hread2]; rfl
    · rw [hread2]; rfl
    · rw [hread2]; rfl
  · intro d s hreported
    obtain ⟨hpeers, hid, hdstate⟩ := disconnected_of_OnDisconnected peer_id_header d s hreported
    refine ⟨hpeers, hid, ?_⟩
    simp [is_connected, hdstate]

set_option maxRecDepth 100000 in
theorem SignOut_completes_witness :
    (peers (run samplePeerIdHeader sampleSignedIn
        [Step.SignOut, Step.OnConnect, Step.OnRead sampleOk]) = [] ∧
      id (run samplePeerIdHeader sampleSignedIn
        [Step.SignOut, Step.OnConnect, Step.OnRead sampleOk]) = none) ∧
    (peers (run samplePeerIdHeader samplePending
        [Step.SignOut, Step.OnConnect, Step.OnRead sampleOk, Step.OnConnect,
          Step.OnRead sampleOk]) = [] ∧
      id (run samplePeerIdHeader samplePending
        [Step.SignOut, Step.OnConnect, Step.OnRead sampleOk, Step.OnConnect,
          Step.OnRead sampleOk]) = none) :=
  have free := (SignOut_completes samplePeerIdHeader sampleSignedIn (by decide)).1
    (by decide) sampleOk (by decide)
  have busy := (SignOut_completes samplePeerIdHeader samplePending (by decide)).2.1
    (by decide) sampleOk sampleOk (by decide) (by decide)
  ⟨⟨free.2.2.2.2.2.1, free.2.2.2.2.2.2.1⟩, ⟨busy.2.2.2.2.2.1, busy.2.2.2.2.2.2.1⟩⟩

end PeerConnectionClient

namespace webrtc

/-! ### The configuration table and `MakeScalabilityMode` -/

/-- C11: for every `ScalabilityMode` `m`, `MakeScalabilityMode` applied to the
five parameters that the lookups give for `m` returns `m` itself: all lookups
and the call return without abort, and the first table entry that matches is
the entry of `m`. -/
theorem MakeScalabilityMode_round_trip (m : ScalabilityMode) :
    ∃ (s t : Int) (p : InterLayerPredMode) (r : Option ScalabilityModeResolutionRatio),
      ScalabilityModeToNumSpatialLayers m = some s ∧
      ScalabilityModeToNumTemporalLayers m = some t ∧
      ScalabilityModeToInterLayerPredMode m = some p ∧
      ScalabilityModeToResolutionRatio m = some r ∧
      MakeScalabilityMode s t p r (ScalabilityModeIsShiftMode m) = some (some m) := by
  cases m <;> exact ⟨_, _, _, _, rfl, rfl, rfl, rfl, by decide⟩

/-- C13: the table `kScalabilityModeConfigs` is built without abort and has
exactly `kNumScalabilityModes` = 34 entries, so the `static_assert` holds; every
`ScalabilityMode`, from `kL1T1` (value 0) to `kS3T3h` (value 33), is the mode of
exactly one entry. -/
theorem kScalabilityModeConfigs_complete :
    kNumScalabilityModes = 34 ∧
    kScalabilityModeConfigs.map List.length = some kNumScalabilityModes ∧
    kScalabilityModeConfigs.map (List.map (fun config => config.scalability_mode)) =
      some kScalabilityModeConfigs.modes ∧
    (∀ m : ScalabilityMode, kScalabilityModeConfigs.modes.count m = 1) ∧
    (∀ m : ScalabilityMode, m.toCtorIdx < kNumScalabilityModes) ∧
    ScalabilityMode.kL1T1.toCtorIdx = 0 ∧ ScalabilityMode.kS3T3h.toCtorIdx = 33 := by
  refine ⟨rfl, by decide, by decide, ?_, ?_, rfl, rfl⟩
  · intro m; cases m <;> decide
  · intro m; cases m <;> decide

theorem firstMatchingMode_eq_some (params : ScalabilityModeParameters)
    (configs : List ScalabilityModeConfiguration) (m : ScalabilityMode)
    (h : firstMatchingMode params configs = some m) :
    ∃ config ∈ configs, config.scalability_mode = m ∧ config.params.opEq params = true := by
  induction configs with
  | nil => cases h
  | cons candidate rest ih =>
    unfold firstMatchingMode at h
    by_cases hmatch : candidate.params.opEq params = true
    · rw [if_pos hmatch] at h
      cases h
      exact ⟨candidate, List.mem_cons_self _ _, rfl, hmatch⟩
    · rw [if_neg hmatch] at h
      obtain ⟨config, hmem, hmode, hparams⟩ := ih h
      exact ⟨config, List.mem_cons_of_mem _ hmem, hmode, hparams⟩

theorem firstMatchingMode_eq_none (params : ScalabilityModeParameters)
    (configs : List ScalabilityModeConfiguration) :
    firstMatchingMode params configs = none ↔
      ∀ config ∈ configs, config.params.opEq params = false := by
  induction configs with
  | nil => simp [firstMatchingMode]
  | cons candidate rest ih =>
    unfold firstMatchingMode
    by_cases hmatch : candidate.params.opEq params = true
    · rw [if_pos hmatch]
      simp [hmatch]
    · rw [if_neg hmatch, ih]
      simp only [Bool.not_eq_true] at hmatch
      simp [hmatch]

/-- The table holds, for every mode, the configuration that the constructor
builds, and nothing else. -/
theorem kScalabilityModeConfigs_entries :
    ∃ configs : List ScalabilityModeConfiguration,
      kScalabilityModeConfigs = some configs ∧
      (∀ config ∈ configs,
        ScalabilityModeConfiguration.make config.scalability_mode = some config) ∧
      (∀ m : ScalabilityMode, ∃ config ∈ configs, config.scalability_mode = m) := by
  refine ⟨kScalabilityModeConfigs.modes.filterMap ScalabilityModeConfiguration.make,
    by decide, by decide, ?_⟩
  intro m
  cases m <;> decide

/-- Comparing the configuration of `m` with looked-up parameters by `operator==`
is asking whether `m` has these parameters. -/
theorem opEq_iff_hasParameters (m : ScalabilityMode) (config : ScalabilityModeConfiguration)
    (hconfig : ScalabilityModeConfiguration.make m = some config)
    (s t : Int) (p : InterLayerPredMode) (r : Option ScalabilityModeResolutionRatio)
    (sh : Bool) :
    config.params.opEq
        { num_spatial_layers := s, num_temporal_layers := t, inter_layer_pred := p,
          ratio := r, shift := sh } = true ↔
      HasParameters m s t p r sh := by
  cases m <;>
    (cases hconfig
     simp [ScalabilityModeParameters.opEq, HasParameters, ScalabilityModeToNumSpatialLayers,
       ScalabilityModeToNumTemporalLayers, ScalabilityModeToInterLayerPredMode,
       ScalabilityModeToResolutionRatio, ScalabilityModeIsShiftMode, switchCase]
     first
       | (intro hs _ hne
          exact absurd hs.symm hne)
       | (constructor
          · rintro ⟨⟨⟨⟨hs, ht⟩, hp⟩, hr⟩, hsh⟩
            exact ⟨hs, ht, fun _ => ⟨hp, hr, hsh⟩⟩
          · rintro ⟨hs, ht, hrest⟩
            obtain ⟨hp, hr, hsh⟩ := hrest (by omega)
            exact ⟨⟨⟨⟨hs, ht⟩, hp⟩, hr⟩, hsh⟩))

/-- With one spatial layer and the shift flag set, `MakeScalabilityMode` returns
`kL1T1` and not `nullopt`, though `kL1T1` is no shift mode and the parameters
are not 2 spatial layers, 2 temporal layers, `kOnKeyPic` and 2:1. -/
theorem MakeScalabilityMode_shift_one_layer :
    MakeScalabilityMode 1 1 InterLayerPredMode.kOn none true =
      some (some ScalabilityMode.kL1T1) ∧
    MakeScalabilityMode 1 1 InterLayerPredMode.kOn none true ≠ some none ∧
    ScalabilityModeIsShiftMode ScalabilityMode.kL1T1 = false := by
  decide

/-- C14 (amended): `MakeScalabilityMode` returns without abort. A mode it
returns has `s` spatial and `t` temporal layers and, when `s` is not 1, also
inter-layer prediction mode `p`, resolution ratio `r` and shift flag `sh`. It
returns `nullopt` exactly when no mode has the parameters in this sense, so
for `s` outside 1, 2, 3, and, when `s` is not 1, for `sh = true` with anything
other than 2 spatial layers, 2 temporal layers, `kOnKeyPic` and the 2:1
ratio. With `s = 1` the shift flag is ignored like `p` and `r`. -/
theorem MakeScalabilityMode_sound (s t : Int) (p : InterLayerPredMode)
    (r : Option ScalabilityModeResolutionRatio) (sh : Bool) :
    ∃ result : Option ScalabilityMode,
      MakeScalabilityMode s t p r sh = some result ∧
      (∀ m : ScalabilityMode, result = some m → HasParameters m s t p r sh) ∧
      (result = none ↔ ∀ m : ScalabilityMode, ¬ HasParameters m s t p r sh) ∧
      (s < 1 ∨ 3 < s → result = none) ∧
      (s ≠ 1 → sh = true →
        ¬ (s = 2 ∧ t = 2 ∧ p = InterLayerPredMode.kOnKeyPic ∧
            r = some ScalabilityModeResolutionRatio.kTwoToOne) →
        result = none) := by
  obtain ⟨configs, hconfigs, hmade, hall⟩ := kScalabilityModeConfigs_entries
  have hnone : firstMatchingMode
      { num_spatial_layers := s, num_temporal_layers := t, inter_layer_pred := p,
        ratio := r, shift := sh } configs = none ↔
      ∀ m : ScalabilityMode, ¬ HasParameters m s t p r sh := by
    rw [firstMatchingMode_eq_none]
    constructor
    · intro hmiss m hhas
      obtain ⟨config, hmem, hmode⟩ := hall m
      have hmatch := (opEq_iff_hasParameters m config (hmode ▸ hmade config hmem)
        s t p r sh).mpr hhas
      rw [hmiss config hmem] at hmatch
      cases hmatch
    · intro hno config hmem
      cases hmatch : config.params.opEq
        { num_spatial_layers := s, num_temporal_layers := t, inter_layer_pred := p,
          ratio := r, shift := sh }
      · rfl
      · exact absurd ((opEq_iff_hasParameters config.scalability_mode config
          (hmade config hmem) s t p r sh).mp hmatch) (hno config.scalability_mode)
  refine ⟨firstMatchingMode
      { num_spatial_layers := s, num_temporal_layers := t, inter_layer_pred := p,
        ratio := r, shift := sh } configs, ?_, ?_, hnone, ?_, ?_⟩
  · simp [MakeScalabilityMode, hconfigs]
  · intro m hm
    obtain ⟨config, hmem, hmode, hmatch⟩ := firstMatchingMode_eq_some _ _ _ hm
    subst hmode
    exact (opEq_iff_hasParameters config.scalability_mode config (hmade config hmem)
      s t p r sh).mp hmatch
  · intro hrange
    rw [hnone]
    intro m hhas
    have hs := hhas.1
    cases m <;>
      simp [ScalabilityModeToNumSpatialLayers, switchCase] at hs <;> omega
  · intro hne hsh hother
    rw [hnone]
    intro m hhas
    obtain ⟨hs, ht, hrest⟩ := hhas
    obtain ⟨hp, hr, hshift⟩ := hrest hne
    subst hsh
    cases m <;> simp [ScalabilityModeIsShiftMode] at hshift
    simp [ScalabilityModeToNumSpatialLayers, ScalabilityModeToNumTemporalLayers,
      ScalabilityModeToInterLayerPredMode, ScalabilityModeToResolutionRatio, switchCase]
      at hs ht hp hr
    exact hother ⟨hs.symm, ht.symm, hp.symm, hr.symm⟩

theorem MakeScalabilityMode_sound_witness :
    MakeScalabilityMode 3 2 InterLayerPredMode.kOnKeyPic
        (some ScalabilityModeResolutionRatio.kTwoToOne) true = some none ∧
    MakeScalabilityMode 4 1 InterLayerPredMode.kOn none false = some none ∧
    MakeScalabilityMode 2 2 InterLayerPredMode.kOnKeyPic
        (some ScalabilityModeResolutionRatio.kTwoToOne) true =
      some (some ScalabilityMode.kL2T2_KEY_SHIFT) := by
  obtain ⟨result, hresult, -, -, -, hshift⟩ := MakeScalabilityMode_sound 3 2
    InterLayerPredMode.kOnKeyPic (some ScalabilityModeResolutionRatio.kTwoToOne) true
  obtain ⟨result4, hresult4, -, -, hrange, -⟩ := MakeScalabilityMode_sound 4 1
    InterLayerPredMode.kOn none false
  refine ⟨?_, ?_, by decide⟩
  · rw [hresult, hshift (by decide) rfl (by decide)]
  · rw [hresult4, hrange (Or.inr (by decide))]

/-! ### `LimitNumSpatialLayers` -/

/-- The limit matters only through its class: at least 3, exactly 2, at most 1. -/
theorem LimitNumSpatialLayers_by_class (m : ScalabilityMode) (k : Int) :
    LimitNumSpatialLayers m k =
      if 3 ≤ k then some m
      else if k = 2 then LimitNumSpatialLayers m 2
      else LimitNumSpatialLayers m 1 := by
  by_cases h3 : 3 ≤ k
  · rw [if_pos h3]
    cases m <;>
      simp [LimitNumSpatialLayers, ScalabilityModeToNumSpatialLayers, switchCase] <;> omega
  · rw [if_neg h3]
    by_cases h2 : k = 2
    · rw [if_pos h2, h2]
    · rw [if_neg h2]
      cases m <;>
        simp [LimitNumSpatialLayers, ScalabilityModeToNumSpatialLayers, switchCase, h2] <;>
        omega

/-- C15: for every mode `m` with `n` spatial and `t` temporal layers and every
integer limit `k`, `LimitNumSpatialLayers(m, k)` returns (without abort) a mode
with `t` temporal layers and exactly `max(1, min(n, k))` spatial layers. It is
`m` itself when `k >= n`, has at most `k` spatial layers when `k >= 1`, and is
one of the one-layer modes `kL1T1`, `kL1T2`, `kL1T3` when `k <= 0`. -/
theorem LimitNumSpatialLayers_layers (m : ScalabilityMode) (k : Int) :
    ∃ (n t : Int) (limited : ScalabilityMode),
      ScalabilityModeToNumSpatialLayers m = some n ∧
      ScalabilityModeToNumTemporalLayers m = some t ∧
      LimitNumSpatialLayers m k = some limited ∧
      ScalabilityModeToNumTemporalLayers limited = some t ∧
      ScalabilityModeToNumSpatialLayers limited = some (max 1 (min n k)) ∧
      (n ≤ k → limited = m) ∧
      (1 ≤ k → max 1 (min n k) ≤ k) ∧
      (k ≤ 0 → limited = ScalabilityMode.kL1T1 ∨ limited = ScalabilityMode.kL1T2 ∨
        limited = ScalabilityMode.kL1T3) := by
  by_cases h3 : 3 ≤ k
  · have hlimit : LimitNumSpatialLayers m k = some m := by
      rw [LimitNumSpatialLayers_by_class, if_pos h3]
    rw [hlimit]
    cases m <;>
      refine ⟨_, _, _, rfl, rfl, rfl, rfl, ?_, fun _ => rfl, fun _ => by omega,
        fun h0 => by omega⟩ <;>
      simp [ScalabilityModeToNumSpatialLayers, switchCase] <;> omega
  · by_cases h2 : k = 2
    · subst h2
      cases m <;>
        exact ⟨_, _, _, rfl, rfl, rfl, rfl, rfl, by decide, by decide, by decide⟩
    · have hlimit : LimitNumSpatialLayers m k = LimitNumSpatialLayers m 1 := by
        rw [LimitNumSpatialLayers_by_class, if_neg h3, if_neg h2]
      rw [hlimit]
      cases m <;>
        refine ⟨_, _, _, rfl, rfl, rfl, rfl, ?_, ?_, fun _ => by omega,
          fun _ => by decide⟩ <;>
        simp [ScalabilityModeToNumSpatialLayers, switchCase] <;> omega

theorem LimitNumSpatialLayers_layers_witness :
    LimitNumSpatialLayers ScalabilityMode.kS3T3h 5 = some ScalabilityMode.kS3T3h ∧
    (LimitNumSpatialLayers ScalabilityMode.kL3T2_KEY (-1) = some ScalabilityMode.kL1T1 ∨
      LimitNumSpatialLayers ScalabilityMode.kL3T2_KEY (-1) = some ScalabilityMode.kL1T2 ∨
      LimitNumSpatialLayers ScalabilityMode.kL3T2_KEY (-1) = some ScalabilityMode.kL1T3) := by
  obtain ⟨n, t, limited, hn, -, hlimited, -, -, hsame, -, -⟩ :=
    LimitNumSpatialLayers_layers ScalabilityMode.kS3T3h 5
  obtain ⟨n0, t0, limited0, -, -, hlimited0, -, -, -, -, hone⟩ :=
    LimitNumSpatialLayers_layers ScalabilityMode.kL3T2_KEY (-1)
  have hthree : n = 3 := by
    simpa [ScalabilityModeToNumSpatialLayers, switchCase] using hn.symm
  refine ⟨?_, ?_⟩
  · rw [hlimited, hsame (by omega)]
  · rw [hlimited0]
    rcases hone (by decide) with h | h | h
    · exact Or.inl (by rw [h])
    · exact Or.inr (Or.inl (by rw [h]))
    · exact Or.inr (Or.inr (by rw [h]))

theorem LimitNumSpatialLayers_twice_by_class (m : ScalabilityMode) :
    (LimitNumSpatialLayers m 2).bind (fun limited => LimitNumSpatialLayers limited 2) =
      LimitNumSpatialLayers m 2 ∧
    (LimitNumSpatialLayers m 2).bind (fun limited => LimitNumSpatialLayers limited 1) =
      LimitNumSpatialLayers m 1 ∧
    (LimitNumSpatialLayers m 1).bind (fun limited => LimitNumSpatialLayers limited 2) =
      LimitNumSpatialLayers m 1 ∧
    (LimitNumSpatialLayers m 1).bind (fun limited => LimitNumSpatialLayers limited 1) =
      LimitNumSpatialLayers m 1 ∧
    (LimitNumSpatialLayers m 2).bind some = LimitNumSpatialLayers m 2 ∧
    (LimitNumSpatialLayers m 1).bind some = LimitNumSpatialLayers m 1 := by
  cases m <;> decide

theorem LimitNumSpatialLayers_returns (m : ScalabilityMode) (k : Int) :
    ∃ limited : ScalabilityMode, LimitNumSpatialLayers m k = some limited := by
  rw [LimitNumSpatialLayers_by_class]
  by_cases h3 : 3 ≤ k
  · exact ⟨m, by rw [if_pos h3]⟩
  · rw [if_neg h3]
    by_cases h2 : k = 2
    · rw [if_pos h2]
      cases m <;> exact ⟨_, rfl⟩
    · rw [if_neg h2]
      cases m <;> exact ⟨_, rfl⟩

/-- C16: limiting twice is limiting once by the smaller limit: for every mode
`m` and all integers `a` and `b`, `LimitNumSpatialLayers(LimitNumSpatialLayers(m,
a), b)` is `LimitNumSpatialLayers(m, min(a, b))`, and both return a mode. Hence
limiting again by the same limit changes nothing, and two limits can be applied
in either order. -/
theorem LimitNumSpatialLayers_compose (m : ScalabilityMode) (a b : Int) :
    (∃ limited : ScalabilityMode, LimitNumSpatialLayers m (min a b) = some limited) ∧
    (LimitNumSpatialLayers m a).bind (fun limited => LimitNumSpatialLayers limited b) =
      LimitNumSpatialLayers m (min a b) ∧
    (LimitNumSpatialLayers m a).bind (fun limited => LimitNumSpatialLayers limited a) =
      LimitNumSpatialLayers m a ∧
    (LimitNumSpatialLayers m a).bind (fun limited => LimitNumSpatialLayers limited b) =
      (LimitNumSpatialLayers m b).bind (fun limited => LimitNumSpatialLayers limited a) := by
  have hcompose : ∀ x y : Int,
      (LimitNumSpatialLayers m x).bind (fun limited => LimitNumSpatialLayers limited y) =
        LimitNumSpatialLayers m (min x y) := by
    intro x y
    obtain ⟨h22, h21, h12, h11, h2, h1⟩ := LimitNumSpatialLayers_twice_by_class m
    have hinner : (fun limited => LimitNumSpatialLayers limited y) =
        fun limited => if 3 ≤ y then some limited
          else if y = 2 then LimitNumSpatialLayers limited 2
          else LimitNumSpatialLayers limited 1 :=
      funext (fun limited => LimitNumSpatialLayers_by_class limited y)
    obtain ⟨z, hz⟩ : ∃ z : Int, z = min x y := ⟨_, rfl⟩
    rw [← hz, LimitNumSpatialLayers_by_class m x, LimitNumSpatialLayers_by_class m z, hinner]
    by_cases hx3 : 3 ≤ x
    · by_cases hy3 : 3 ≤ y
      · have hz3 : 3 ≤ z := by omega
        simp only [if_pos hx3, if_pos hy3, if_pos hz3, Option.some_bind]
      · have hz3 : ¬ 3 ≤ z := by omega
        by_cases hy2 : y = 2
        · have hz2 : z = 2 := by omega
          simp only [if_pos hx3, if_neg hy3, if_pos hy2, if_neg hz3, if_pos hz2,
            Option.some_bind]
        · have hz2 : ¬ z = 2 := by omega
          simp only [if_pos hx3, if_neg hy3, if_neg hy2, if_neg hz3, if_neg hz2,
            Option.some_bind]
    · have hz3 : ¬ 3 ≤ z := by omega
      by_cases hx2 : x = 2
      · by_cases hy3 : 3 ≤ y
        · have hz2 : z = 2 := by omega
          simp only [if_neg hx3, if_pos hx2, if_pos hy3, if_neg hz3, if_pos hz2]
          exact h2
        · by_cases hy2 : y = 2
          · have hz2 : z = 2 := by omega
            simp only [if_neg hx3, if_pos hx2, if_neg hy3, if_pos hy2, if_neg hz3, if_pos hz2]
            exact h22
          · have hz2 : ¬ z = 2 := by omega
            simp only [if_neg hx3, if_pos hx2, if_neg hy3, if_neg hy2, if_neg hz3, if_neg hz2]
            exact h21
      · have hz2 : ¬ z = 2 := by omega
        by_cases hy3 : 3 ≤ y
        · simp only [if_neg hx3, if_neg hx2, if_pos hy3, if_neg hz3, if_neg hz2]
          exact h1
        · by_cases hy2 : y = 2
          · simp only [if_neg hx3, if_neg hx2, if_neg hy3, if_pos hy2, if_neg hz3, if_neg hz2]
            exact h12
          · simp only [if_neg hx3, if_neg hx2, if_neg hy3, if_neg hy2, if_neg hz3, if_neg hz2]
            exact h11
  refine ⟨LimitNumSpatialLayers_returns m (min a b), hcompose a b, ?_, ?_⟩
  · rw [hcompose a a, min_self]
  · rw [hcompose a b, hcompose b a, min_comm]

end webrtc

namespace PeerConnectionClient

/-! ### The sign-off sentinel -/

theorem OnHangingGetRead_of_message (peer_id_header : List Char) (c : Client)
    (received event : List Char) (content_length eoh peer_id : Nat)
    (hstate : c.state_ = State.CONNECTED)
    (hsock : c.hanging_get_ = ConnState.CS_CONNECTED)
    (hcomplete : ReadIntoBuffer received c.notification_data_ = (true, event, content_length))
    (hparse : ParseServerResponse peer_id_header event content_length =
      some (some peer_id, eoh))
    (hsender : c.my_id_ ≠ some (peer_id : Int)) :
    OnHangingGetRead peer_id_header c received =
      ({ c with notification_data_ :=
          event.drop (((messageSize event).map Prod.fst).getD event.length) },
       OnMessageFromPeer (peer_id : Int) (messageBody event eoh content_length)) := by
  unfold OnHangingGetRead
  rw [if_neg (by simp [hsock]), hcomplete]
  simp only [hstate, if_true, onNotification, hparse]
  rw [if_neg hsender]

/-- C12: a complete message that arrives on the notification socket in
`CONNECTED` from another peer is handed to `OnMessageFromPeer`. When its payload
is `kByeMessage` (the string `BYE`) the observer is told that this peer hung
up, by `OnPeerDisconnected`, and receives no `OnMessageFromPeer`; every other
payload reaches the observer unchanged through `OnMessageFromPeer`. The peer
registry and the session state are left as they were in both cases. -/
theorem sign_off_is_hang_up (peer_id_header : List Char) (c : Client)
    (received event : List Char) (content_length eoh peer_id : Nat)
    (hstate : c.state_ = State.CONNECTED)
    (hsock : c.hanging_get_ = ConnState.CS_CONNECTED)
    (hcomplete : ReadIntoBuffer received c.notification_data_ = (true, event, content_length))
    (hparse : ParseServerResponse peer_id_header event content_length =
      some (some peer_id, eoh))
    (hsender : c.my_id_ ≠ some (peer_id : Int)) :
    kByeMessage = "BYE".toList ∧
    (messageBody event eoh content_length = kByeMessage →
      (OnHangingGetRead peer_id_header c received).2 =
        [Effect.OnPeerDisconnected (peer_id : Int)] ∧
      ∀ (sender : Int) (message : List Char),
        Effect.OnMessageFromPeer sender message ∉
          (OnHangingGetRead peer_id_header c received).2) ∧
    (messageBody event eoh content_length ≠ kByeMessage →
      (OnHangingGetRead peer_id_header c received).2 =
        [Effect.OnMessageFromPeer (peer_id : Int) (messageBody event eoh content_length)]) ∧
    (OnHangingGetRead peer_id_header c received).1.peers_ = c.peers_ ∧
    (OnHangingGetRead peer_id_header c received).1.state_ = c.state_ := by
  rw [OnHangingGetRead_of_message peer_id_header c received event content_length eoh peer_id
    hstate hsock hcomplete hparse hsender]
  refine ⟨rfl, ?_, ?_, rfl, rfl⟩
  · intro hbye
    have heffects : OnMessageFromPeer (peer_id : Int) (messageBody event eoh content_length) =
        [Effect.OnPeerDisconnected (peer_id : Int)] := by
      rw [OnMessageFromPeer, if_pos hbye]
    rw [heffects]
    exact ⟨rfl, fun sender message hmem => by simp at hmem⟩
  · intro hother
    rw [OnMessageFromPeer, if_neg hother]

set_option maxRecDepth 100000 in
theorem sign_off_is_hang_up_witness :
    (OnHangingGetRead samplePeerIdHeader sampleSignedIn sampleBye).2 =
      [Effect.OnPeerDisconnected 2] ∧
    (OnHangingGetRead samplePeerIdHeader sampleSignedIn sampleHello).2 =
      [Effect.OnMessageFromPeer 2 "hello".toList] :=
  have bye := sign_off_is_hang_up samplePeerIdHeader sampleSignedIn sampleBye sampleBye 3 45 2
    (by decide) (by decide) (by decide) (by decide) (by decide)
  have hello := sign_off_is_hang_up samplePeerIdHeader sampleSignedIn sampleHello sampleHello
    5 45 2 (by decide) (by decide) (by decide) (by decide) (by decide)
  ⟨(bye.2.1 (by decide)).1, hello.2.2.1 (by decide)⟩

end PeerConnectionClient
